import Mathlib

/-!
Channel, a ring DHT node (`src/node-udp.go`) and its video segmentation
(`src/clientstream/downloader.go`).

A shallow embedding of the program and theorems about it.

Conventions of the embedding.

* Go `int64` values are `Int`; the one subtraction that can leave the `int64`
  range (in `sendToNextBestNode`) is wrapped explicitly with `wrapInt64`.
* The Go globals (`successor`, `ftab`, `store`, ...) are the fields of `Node`.
  The local variable `msg` of `startUpSystem` is declared outside the receive
  loop and so survives from one iteration to the next; it is a field of `Node`
  as well.
* Two library facilities are parameters, collected in `Env`: the SHA-1 digest
  (`crypto/sha1`) and whether `net.Dial` followed by `Write` succeeds for an
  address.  `checkError` ends the process (`os.Exit`), which is the status
  `Status.exited`.
* A received datagram is represented by what `json.Unmarshal` makes of its
  bytes (`Datagram`).
* Go leaves the iteration order of a map unspecified; `ftab` and `store` are
  association lists with unique keys, iterated in list order.  The choice made
  by `sendToNextBestNode` is the same for every order (`closestNode_perm`).
* An execution of one node is a list of `Event`s: datagrams handled by the
  receive loop and timeouts of the two liveness timers.  The probes the timers
  send and their receives from the alive channels write none of the globals
  but the channel occupancy, and are not events.
* Of `src/clientstream/downloader.go` the segmentation of a file is embedded
  (`convByteArrayToSeg` and the `Video` record built from its result); Go
  `int` indices are natural numbers, a `[]byte` is a list of natural numbers.
-/

namespace Channel

/-! ## Machine integers and `strconv` -/

/-- Two's-complement wrap of an integer into the `int64` range. -/
def wrapInt64 (x : Int) : Int := (x + 2 ^ 63) % 2 ^ 64 - 2 ^ 63

/-- The constant `math.MaxInt64`. -/
def maxInt64 : Int := 2 ^ 63 - 1

/-- Value of a run of decimal digits, most significant first. -/
def digitsValue (ds : List Char) : Nat :=
  ds.foldl (fun acc d => 10 * acc + (d.toNat - 48)) 0

/-- Go `strconv.ParseInt(s, 10, 64)`: the parsed value and whether the error
is nil.  A syntax error gives `0`; a value outside `int64` gives the nearest
bound; both come with a non-nil error. -/
def parseInt (s : String) : Int × Bool :=
  match s.toList with
  | [] => (0, false)
  | c :: cs =>
    let neg : Bool := c = '-'
    let ds : List Char := if c = '+' ∨ c = '-' then cs else c :: cs
    if ds = [] ∨ ds.all Char.isDigit = false then (0, false)
    else
      let un : Nat := digitsValue ds
      if neg = false ∧ 2 ^ 63 ≤ un then (2 ^ 63 - 1, false)
      else if neg = true ∧ 2 ^ 63 < un then (-(2 ^ 63), false)
      else (if neg then -(un : Int) else (un : Int), true)

/-- Go `strconv.FormatInt(i, 10)`. -/
def formatInt (i : Int) : String :=
  if i < 0 then "-" ++ Nat.repr i.natAbs else Nat.repr i.toNat

/-! ## Data model -/

/-- Go `CommandMessage`. -/
structure CommandMessage where
  Cmd : String
  SourceAddr : String
  DestAddr : String
  Key : String
  Val : String
deriving DecidableEq

/-- The two library facilities the node relies on. -/
structure Env where
  /-- Digest of `crypto/sha1` on the bytes of a string, read as a base-16
  number (what `big.Int.SetString(hex, 16)` yields). -/
  sha1 : String → Nat
  /-- Whether `net.Dial("udp", addr)` and the following `Write` succeed. -/
  dial : String → Bool

/-- A datagram handed to the network: destination address and envelope. -/
structure Packet where
  addr : String
  msg : CommandMessage
deriving DecidableEq

/-- What became of the process: still looping, ended by `checkError`
(`os.Exit`), or parked on a channel send with no room and no receiver. -/
inductive Status where
  | running
  | exited
  | blocked
deriving DecidableEq

/-- The global variables of `node-udp.go`, the loop variable `msg` of
`startUpSystem`, and the occupancy of the channels. -/
structure Node where
  myAddr : String
  identifier : Int
  m : Nat
  store : List (String × String)
  ftab : List (Int × String)
  successor : Int
  successorAddr : String
  predecessor : Int
  predecessorAddr : String
  /-- Number of values buffered in `successorAliveChannel` (capacity 1). -/
  successorAliveChannel : Nat
  /-- Number of values buffered in `predecessorAliveChannel` (capacity 1). -/
  predecessorAliveChannel : Nat
  /-- Whether `connectToSystem` is parked at `<-c`. -/
  cWaiting : Bool
  msg : CommandMessage
  status : Status
deriving DecidableEq

/-- A node together with the datagrams it has handed to the network, oldest
first. -/
structure Run where
  node : Node
  sent : List Packet
deriving DecidableEq

/-- Go `ftab[k]` with the comma-ok form. -/
def ftabGet : List (Int × String) → Int → Option String
  | [], _ => none
  | (k, v) :: rest, i => if k = i then some v else ftabGet rest i

/-- Go `ftab[k] = v`. -/
def ftabSet : List (Int × String) → Int → String → List (Int × String)
  | [], i, a => [(i, a)]
  | (k, v) :: rest, i, a => if k = i then (k, a) :: rest else (k, v) :: ftabSet rest i a

/-- Go `store[k] = v`. -/
def storeSet : List (String × String) → String → String → List (String × String)
  | [], i, a => [(i, a)]
  | (k, v) :: rest, i, a => if k = i then (k, a) :: rest else (k, v) :: storeSet rest i a

/-! ## Decoding -/

/-- What `json.Unmarshal` makes of the bytes of a datagram.  `garbage`: the
bytes are not valid JSON (truncated, arbitrary bytes); `Unmarshal` checks
validity before it writes anything, so the target is left as it was.
`object`: a JSON value that is valid; each envelope field is either present
with a string value or not written (absent, null, of the wrong type, or the
value is not an object at all). -/
inductive Datagram where
  | garbage
  | object (Cmd SourceAddr DestAddr Key Val : Option String)
deriving DecidableEq

/-- Go `json.Unmarshal(buf[:n], &msg)`: fields present in the datagram
overwrite those of `msg`, every other field keeps its earlier value. -/
def unmarshal (d : Datagram) (msg : CommandMessage) : CommandMessage :=
  match d with
  | .garbage => msg
  | .object c s t k v =>
    { Cmd := c.getD msg.Cmd
      SourceAddr := s.getD msg.SourceAddr
      DestAddr := t.getD msg.DestAddr
      Key := k.getD msg.Key
      Val := v.getD msg.Val }

/-- Go `json.Marshal(msg)` as seen by the receiver: all five fields are
written. -/
def marshal (msg : CommandMessage) : Datagram :=
  .object (some msg.Cmd) (some msg.SourceAddr) (some msg.DestAddr) (some msg.Key) (some msg.Val)

/-! ## Identity and the ring order -/

/-- Go `int64(math.Pow(2, m))`.  Exact for `m < 63`; beyond that the
conversion is outside the `int64` range and Go leaves the result to the
platform (the value given here is the one of amd64). -/
def powerOfTwo (m : Nat) : Int := if m < 63 then 2 ^ m else -(2 ^ 63)

/-- Go `getIdentifier`: the digest as a big integer, reduced by
`big.Int.Mod` (Euclidean) modulo `int64(math.Pow(2, m))`. -/
def getIdentifier (env : Env) (m : Nat) (Key : String) : Int :=
  let k : Int := (env.sha1 Key : Int)
  let power : Int := powerOfTwo m
  k % power

/-- Go `betweenIdens`. -/
def betweenIdens (suc me iden : Int) : Bool :=
  if suc < me then
    if iden > me ∧ iden > suc then true
    else if iden < me ∧ iden < suc then true
    else false
  else if suc > me then
    if iden > me ∧ iden < suc then true
    else false
  else false

/-- Go `getVal`: looks the identifier of the key up in `ftab`. -/
def getVal (env : Env) (σ : Node) (Key : String) : String × Bool :=
  let v := (ftabGet σ.ftab (getIdentifier env σ.m Key)).getD ""
  if v = "" then (v, false) else (v, true)

/-! ## Sending -/

/-- Apply a change of the globals, unless the process has stopped. -/
def Run.update (r : Run) (f : Node → Node) : Run :=
  if r.node.status = .running then { r with node := f r.node } else r

/-- Go `checkError(err)` with a non-nil error. -/
def Run.exit (r : Run) : Run :=
  r.update (fun n => { n with status := .exited })

/-- Go `sendMessage`: dial, write, close; a failure ends the process. -/
def sendMessage (env : Env) (r : Run) (addr : String) (msg : CommandMessage) : Run :=
  if r.node.status = .running then
    if env.dial addr then { r with sent := r.sent ++ [⟨addr, msg⟩] }
    else r.exit
  else r

/-- The loop of `sendToNextBestNode`: the address of the entry with the
least `nodeIden - KeyIdentifier` (an `int64` subtraction) below
`math.MaxInt64`, the empty string if there is none. -/
def closestNode (ftab : List (Int × String)) (KeyIdentifier : Int) : String :=
  (ftab.foldl
    (fun (acc : Int × String) (e : Int × String) =>
      let diff := wrapInt64 (e.1 - KeyIdentifier)
      if diff < acc.1 then (diff, e.2) else acc)
    (maxInt64, "")).2

/-- Go `sendToNextBestNode`. -/
def sendToNextBestNode (env : Env) (r : Run) (KeyIdentifier : Int) (msg : CommandMessage) : Run :=
  sendMessage env r (closestNode r.node.ftab KeyIdentifier) msg

/-- Go `sendPredInfo`. -/
def sendPredInfo (env : Env) (r : Run) (src succ : String) : Run :=
  sendMessage env r src ⟨"_resLocPred", r.node.myAddr, src, "predecessor", succ⟩

/-- Go `sendAliveMessage`. -/
def sendAliveMessage (env : Env) (r : Run) (addr : String) : Run :=
  sendMessage env r addr
    ⟨"_heartbeat", r.node.myAddr, addr, formatInt r.node.identifier, r.node.myAddr⟩

/-- Go `provideInfo`. -/
def provideInfo (env : Env) (r : Run) (msg : CommandMessage) (nodeAddr : String) : Run :=
  match parseInt msg.Val with
  | (_, false) => r.exit
  | (iden, true) =>
    if betweenIdens r.node.successor r.node.identifier iden then
      sendMessage env r msg.SourceAddr
        ⟨"_resInfo", nodeAddr, msg.SourceAddr, msg.Val, r.node.successorAddr⟩
    else if r.node.identifier = iden then
      sendMessage env r msg.SourceAddr ⟨"_resInfo", nodeAddr, msg.SourceAddr, msg.Val, nodeAddr⟩
    else
      match ftabGet r.node.ftab iden with
      | some val =>
        sendMessage env r msg.SourceAddr ⟨"_resInfo", nodeAddr, msg.SourceAddr, msg.Val, val⟩
      | none => sendToNextBestNode env r iden msg

/-- Go `getNodeInfo`. -/
def getNodeInfo (env : Env) (r : Run) (nodeAddr : String) (iden : Int) : Run :=
  sendMessage env r r.node.successorAddr ⟨"_getInfo", nodeAddr, "", "", formatInt iden⟩

/-- The key probed by round `i` of `initFingerTable`:
`int64(math.Mod(float64(thisIden) + math.Pow(2, i), math.Pow(2, m)))`. -/
def fingerKey (thisIden : Int) (m i : Nat) : Int :=
  (thisIden + 2 ^ i) % 2 ^ m

/-- Go `initFingerTable`. -/
def initFingerTable (env : Env) (r : Run) (nodeAddr : String) : Run :=
  let thisIden := getIdentifier env r.node.m nodeAddr
  (List.range r.node.m).foldl
    (fun acc i => getNodeInfo env acc nodeAddr (fingerKey thisIden r.node.m i)) r

/-- Go `stabilizeNode`. -/
def stabilizeNode (env : Env) (r : Run) (position : String) : Run :=
  let r1 := r.node.ftab.foldl
    (fun acc e =>
      sendMessage env acc e.2
        ⟨"_proposal", acc.node.myAddr, e.2, position, formatInt acc.node.identifier⟩) r
  sendMessage env r1 r1.node.predecessorAddr
    ⟨"_proposal", r1.node.myAddr, r1.node.predecessorAddr, position,
      formatInt r1.node.identifier⟩

/-! ## The dispatch loop -/

/-- Go `ch <- true` on a channel of capacity 1 whose occupancy is read and
written through `get` and `set`: the value is buffered when there is room,
otherwise the sender parks. -/
def chanSend (r : Run) (get : Node → Nat) (set : Node → Nat → Node) : Run :=
  if get r.node < 1 then r.update (fun n => set n (get n + 1))
  else r.update (fun n => { n with status := .blocked })

/-- Case `"_proposal"` of the switch. -/
def caseProposal (env : Env) (r : Run) (msg : CommandMessage) : Run :=
  if msg.Key = "successor" ∧ r.node.predecessor = -1 then
    sendMessage env r msg.SourceAddr
      ⟨"_resProposal", r.node.myAddr, msg.SourceAddr, "successor", formatInt r.node.identifier⟩
  else if r.node.predecessor ≠ -1 ∧ r.node.predecessorAddr ≠ "" then
    sendMessage env r r.node.predecessorAddr msg
  else r

/-- Case `"_resProposal"` of the switch. -/
def caseResProposal (env : Env) (r : Run) (msg : CommandMessage) : Run :=
  if msg.Key = "successor" ∧ r.node.successor = -1 then
    let r1 := r.update (fun n =>
      { n with successor := (parseInt msg.Val).1, successorAddr := msg.SourceAddr })
    sendMessage env r1 msg.SourceAddr
      ⟨"_resProposal", r1.node.myAddr, msg.SourceAddr, "predecessor",
        formatInt r1.node.identifier⟩
  else if msg.Key = "predecessor" ∧ r.node.predecessor = -1 then
    let r1 := r.update (fun n =>
      { n with predecessor := (parseInt msg.Val).1, predecessorAddr := msg.SourceAddr })
    sendMessage env r1 msg.SourceAddr
      ⟨"_resProposal", r1.node.myAddr, msg.SourceAddr, "successor",
        formatInt r1.node.identifier⟩
  else r

/-- Case `"_heartbeat"` of the switch. -/
def caseHeartbeat (r : Run) (msg : CommandMessage) : Run :=
  let r1 :=
    if msg.SourceAddr = r.node.successorAddr then
      chanSend r (fun n => n.successorAliveChannel)
        (fun n v => { n with successorAliveChannel := v })
    else r
  if msg.SourceAddr = r1.node.predecessorAddr then
    chanSend r1 (fun n => n.predecessorAliveChannel)
      (fun n v => { n with predecessorAliveChannel := v })
  else r1

/-- Case `"_alive?"` of the switch. -/
def caseAlive (env : Env) (r : Run) (msg : CommandMessage) : Run :=
  if r.node.predecessorAddr = msg.SourceAddr then sendAliveMessage env r r.node.predecessorAddr
  else if r.node.successorAddr = msg.SourceAddr then sendAliveMessage env r r.node.successorAddr
  else r

/-- Case `"_getVal"` of the switch. -/
def caseGetVal (env : Env) (r : Run) (msg : CommandMessage) (k : Int) (nodeAddr : String) : Run :=
  match getVal env r.node msg.Key with
  | (v, true) =>
    sendMessage env r msg.SourceAddr ⟨"_resVal", nodeAddr, msg.SourceAddr, msg.Key, v⟩
  | (_, false) => sendToNextBestNode env r k msg

/-- Case `"_resInfo"` of the switch. -/
def caseResInfo (r : Run) (msg : CommandMessage) (k : Int) : Run :=
  r.update (fun n => { n with ftab := ftabSet n.ftab k msg.Val })

/-- Case `"_setVal"` of the switch. -/
def caseSetVal (env : Env) (r : Run) (msg : CommandMessage) (k : Int) (nodeAddr : String) : Run :=
  match getVal env r.node msg.Key with
  | (_, true) =>
    let r1 := r.update (fun n => { n with store := storeSet n.store msg.Key msg.Val })
    sendMessage env r1 msg.SourceAddr ⟨"_resGen", nodeAddr, msg.SourceAddr, "", "Key Updated"⟩
  | (_, false) => sendToNextBestNode env r k msg

/-- Case `"_locPred"` of the switch. -/
def caseLocPred (env : Env) (r : Run) (msg : CommandMessage) (k : Int) (nodeAddr : String) : Run :=
  if msg.SourceAddr = r.node.successorAddr then sendPredInfo env r msg.SourceAddr nodeAddr
  else sendToNextBestNode env r k msg

/-- Case `"_resLocPred"` of the switch. -/
def caseResLocPred (r : Run) (msg : CommandMessage) : Run :=
  r.update (fun n =>
    { n with predecessor := (parseInt msg.Key).1, predecessorAddr := msg.Val })

/-- Case `"_resDisc"` of the switch.  The send `c <- "okay"` on the
unbuffered channel `c` completes when `connectToSystem` is parked at `<-c`;
that goroutine then goes on to `initFingerTable`, run here right after the
hand-over.  With no receiver the loop parks. -/
def caseResDisc (env : Env) (r : Run) (msg : CommandMessage) : Run :=
  let r1 := r.update (fun n =>
    { n with successor := getIdentifier env n.m msg.Val, successorAddr := msg.Val })
  if r1.node.cWaiting then
    initFingerTable env (r1.update (fun n => { n with cWaiting := false })) r1.node.myAddr
  else r1.update (fun n => { n with status := .blocked })

/-- Case `"_discover"` of the switch. -/
def caseDiscover (env : Env) (r : Run) (msg : CommandMessage) (nodeAddr : String) : Run :=
  let nodeIdentifier := getIdentifier env r.node.m msg.SourceAddr
  if r.node.successor = -1 then
    let r1 := r.update (fun n => { n with ftab := ftabSet n.ftab nodeIdentifier msg.SourceAddr })
    let r2 := sendMessage env r1 msg.SourceAddr ⟨"_resDisc", nodeAddr, msg.SourceAddr, "", nodeAddr⟩
    r2.update (fun n =>
      { n with successor := nodeIdentifier, successorAddr := msg.SourceAddr,
               predecessorAddr := msg.SourceAddr })
  else if betweenIdens r.node.successor r.node.identifier nodeIdentifier then
    let r1 := sendPredInfo env r r.node.successorAddr msg.SourceAddr
    let r2 := sendPredInfo env r1 msg.SourceAddr r1.node.myAddr
    let r3 := r2.update (fun n => { n with ftab := ftabSet n.ftab nodeIdentifier msg.SourceAddr })
    let r4 := sendMessage env r3 msg.SourceAddr
      ⟨"_resDisc", nodeAddr, msg.SourceAddr, "", r3.node.successorAddr⟩
    r4.update (fun n => { n with successor := nodeIdentifier, successorAddr := msg.SourceAddr })
  else
    sendToNextBestNode env r (getIdentifier env r.node.m msg.SourceAddr) msg

/-- The switch on `msg.Cmd` in `startUpSystem`; `k` is the result of
`strconv.ParseInt(msg.Key, 10, 64)`, whose error is not looked at. -/
def handle (env : Env) (nodeAddr : String) (r : Run) (msg : CommandMessage) (k : Int) : Run :=
  if msg.Cmd = "_proposal" then caseProposal env r msg
  else if msg.Cmd = "_resProposal" then caseResProposal env r msg
  else if msg.Cmd = "_heartbeat" then caseHeartbeat r msg
  else if msg.Cmd = "_alive?" then caseAlive env r msg
  else if msg.Cmd = "_getInfo" then provideInfo env r msg nodeAddr
  else if msg.Cmd = "_getVal" then caseGetVal env r msg k nodeAddr
  else if msg.Cmd = "_resInfo" then caseResInfo r msg k
  else if msg.Cmd = "_setVal" then caseSetVal env r msg k nodeAddr
  else if msg.Cmd = "_locPred" then caseLocPred env r msg k nodeAddr
  else if msg.Cmd = "_resLocPred" then caseResLocPred r msg
  else if msg.Cmd = "_resDisc" then caseResDisc env r msg
  else if msg.Cmd = "_discover" then caseDiscover env r msg nodeAddr
  else r

/-- One iteration of the receive loop of `startUpSystem(nodeAddr)` on a
datagram: decode into the loop variable `msg` (the error of `Unmarshal` is
overwritten by that of `ParseInt` and never checked), parse `msg.Key`, and
switch on `msg.Cmd`.  The result holds the new node and the datagrams sent in
this iteration.  A process that has exited or is parked does nothing.
The cases `"_getVal"` and `"_setVal"` also assign the reply bytes to the read
buffer `buf`, which shortens what later reads can hold; bytes and their
truncation lie below this embedding, whose input is what the decoder makes of
the bytes read. -/
def startUpSystem (env : Env) (nodeAddr : String) (σ : Node) (d : Datagram) : Run :=
  if σ.status = .running then
    let msg := unmarshal d σ.msg
    let k := (parseInt msg.Key).1
    handle env nodeAddr ⟨{ σ with msg := msg }, []⟩ msg k
  else ⟨σ, []⟩

/-! ## Start-up, joining and the liveness timers -/

/-- The assignments of `main` before the goroutines start. -/
def mainInit (env : Env) (myAddr : String) : Node :=
  { myAddr := myAddr
    identifier := getIdentifier env 3 myAddr
    m := 3
    store := []
    ftab := []
    successor := -1
    successorAddr := ""
    predecessor := -1
    predecessorAddr := ""
    successorAliveChannel := 0
    predecessorAliveChannel := 0
    cWaiting := false
    msg := ⟨"", "", "", "", ""⟩
    status := .running }

/-- Go `locateSuccessor(conn, id)`, with `conn` dialled to `startAddr`. -/
def locateSuccessor (env : Env) (r : Run) (startAddr id : String) : Run :=
  sendMessage env r startAddr ⟨"_discover", id, "", "", ""⟩

/-- Go `locatePredecessor(conn)`, with `conn` dialled to `startAddr`. -/
def locatePredecessor (env : Env) (r : Run) (startAddr : String) : Run :=
  sendMessage env r startAddr ⟨"_locPred", r.node.myAddr, "", formatInt r.node.identifier, ""⟩

/-- Go `connectToSystem` up to its receive `<-c`: the two requests are
written and the goroutine parks.  Its continuation, `initFingerTable`, is
run by `caseResDisc`. -/
def connectToSystem (env : Env) (r : Run) (nodeAddr startAddr : String) : Run :=
  let r1 := locateSuccessor env r startAddr nodeAddr
  let r2 := locatePredecessor env r1 startAddr
  r2.update (fun n => { n with cWaiting := true })

/-- Go `main(myAddr, startAddr)`: the first node only listens, any other
node also runs `connectToSystem`. -/
def main (env : Env) (myAddr startAddr : String) : Run :=
  if myAddr = startAddr then ⟨mainInit env myAddr, []⟩
  else connectToSystem env ⟨mainInit env myAddr, []⟩ myAddr startAddr

/-- The timeout branch of `handleSuccessorHeartbeats`. -/
def successorTimeout (env : Env) (σ : Node) : Run :=
  let r : Run := ⟨σ, []⟩
  let r1 := r.update (fun n => { n with successor := -1, successorAddr := "" })
  stabilizeNode env r1 "successor"

/-- The timeout branch of `handlePredecessorHeartbeats`. -/
def predecessorTimeout (σ : Node) : Run :=
  let r : Run := ⟨σ, []⟩
  r.update (fun n => { n with predecessor := -1, predecessorAddr := "" })

/-! ## A network of nodes -/

/-- Nodes, the datagrams in flight (oldest first), and the datagrams that
reached an address where no node of the network listens. -/
structure Net where
  nodes : List Node
  queue : List Packet
  outside : List Packet
deriving DecidableEq

/-- Replace the node listening on the address of `n` by `n`. -/
def putNode : List Node → Node → List Node
  | [], _ => []
  | x :: rest, n => if x.myAddr = n.myAddr then n :: rest else x :: putNode rest n

/-- The node listening on `addr`, if any. -/
def findNode : List Node → String → Option Node
  | [], _ => none
  | x :: rest, addr => if x.myAddr = addr then some x else findNode rest addr

/-- Deliver the oldest datagram in flight: the node listening on its address
runs one iteration of its loop on it, and what it sends joins the queue. -/
def Net.deliver (env : Env) (net : Net) : Net :=
  match net.queue with
  | [] => net
  | p :: rest =>
    match findNode net.nodes p.addr with
    | none => { net with queue := rest, outside := net.outside ++ [p] }
    | some n =>
      let r := startUpSystem env n.myAddr n (marshal p.msg)
      { net with nodes := putNode net.nodes r.node, queue := rest ++ r.sent }

/-- Deliver `steps` datagrams in order. -/
def Net.run (env : Env) : Nat → Net → Net
  | 0, net => net
  | steps + 1, net => Net.run env steps (net.deliver env)

/-- Start the program `main(myAddr, startAddr)` as a new node of the network. -/
def Net.start (env : Env) (net : Net) (myAddr startAddr : String) : Net :=
  let r := main env myAddr startAddr
  { net with nodes := net.nodes ++ [r.node], queue := net.queue ++ r.sent }

/-- Hand the network a datagram from outside (a client request). -/
def Net.inject (net : Net) (addr : String) (msg : CommandMessage) : Net :=
  { net with queue := net.queue ++ [⟨addr, msg⟩] }

/-- A stand-in for the digest, used to instantiate statements at concrete
addresses: the bytes of the string read as one base-256 number.  Modulo
`2 ^ 3` it is the low three bits of the last character, so the addresses
`":6661"`, `":6663"` and `":6665"` get the identifiers 1, 3 and 5. -/
def byteDigest (s : String) : Nat :=
  s.toList.foldl (fun acc c => 256 * acc + c.toNat) 0

/-- An environment with the stand-in digest in which every address but the
empty one can be dialled. -/
def testEnv : Env :=
  { sha1 := byteDigest
    dial := fun addr => addr ≠ "" }

/-! ## The ring order, in the words of the specification -/

/-- Number of clockwise steps from `x` to the first occurrence of `y` on a
ring of `N` identifiers. -/
def cwDist (N x y : Int) : Int := (y - x) % N

/-- The identifier `iden` lies strictly inside the clockwise arc `(me, suc)`:
walking clockwise from `me`, it is met after at least one step and strictly
before `suc`. -/
def insideArc (N me suc iden : Int) : Prop :=
  0 < cwDist N me iden ∧ cwDist N me iden < cwDist N me suc

instance (N me suc iden : Int) : Decidable (insideArc N me suc iden) := by
  unfold insideArc
  exact inferInstance

/-! ## Ring state and the scenarios the statements are instantiated at -/

/-- The ring state of a node: successor and predecessor descriptors, routing
cache and local store. -/
structure RingState where
  successor : Int
  successorAddr : String
  predecessor : Int
  predecessorAddr : String
  ftab : List (Int × String)
  store : List (String × String)
deriving DecidableEq

/-- The ring state held in the globals of a node. -/
def ringState (σ : Node) : RingState :=
  ⟨σ.successor, σ.successorAddr, σ.predecessor, σ.predecessorAddr, σ.ftab, σ.store⟩

/-- The ring state of the node of a network listening on `addr`. -/
def Net.ringAt (net : Net) (addr : String) : Option RingState :=
  (findNode net.nodes addr).map ringState

/-- The successor pointer of the node of a network listening on `addr`:
identifier and address. -/
def Net.successorAt (net : Net) (addr : String) : Option (Int × String) :=
  (findNode net.nodes addr).map (fun n => (n.successor, n.successorAddr))

/-- A node just started on `":6661"`: no successor, no predecessor. -/
def freshNode : Node := mainInit testEnv ":6661"

/-- The node `":6661"` (identifier 1) with successor `":6665"`
(identifier 5). -/
def nodeOneBeforeFive : Node :=
  { mainInit testEnv ":6661" with successor := 5, successorAddr := ":6665" }

/-- The first node `a` listens alone, then `b` is started with `a` as its
starter node; nothing has been delivered yet. -/
def twoNodeStart (env : Env) (a b : String) : Net :=
  Net.start env (Net.start env ⟨[], [], []⟩ a a) b a

/-- The two-node network after 13 deliveries, which empty its queue when the
identifiers of `a` and `b` are 1 and 3. -/
def twoNodeRing (env : Env) (a b : String) : Net :=
  Net.run env 13 (twoNodeStart env a b)

/-- A third node `c` is started with `a` as its starter node once the join
of `b` has come to rest. -/
def threeNodeStart (env : Env) (a b c : String) : Net :=
  Net.start env (twoNodeRing env a b) c a

/-- A client at `":7000"` asks the node at `entry` to set `"k"` to `"v"`,
and, once that request has been served, to get `"k"`. -/
def setThenGet (entry : String) : Net :=
  Net.run testEnv 4
    ((Net.run testEnv 4
        ((twoNodeRing testEnv ":6661" ":6663").inject entry
          ⟨"_setVal", ":7000", "", "k", "v"⟩)).inject entry
      ⟨"_getVal", ":7000", "", "k", ""⟩)

/-- The network of three nodes in which every datagram of the two joins has
been handled except the probe of `a5` for identifier 6, which is in flight to
`a3`. -/
def threeNodeLoop (a1 a3 a5 : String) : Net :=
  { nodes :=
      [{ myAddr := a1, identifier := 1, m := 3, store := [], ftab := [(3, a3)],
         successor := 3, successorAddr := a3, predecessor := 0, predecessorAddr := a5,
         successorAliveChannel := 0, predecessorAliveChannel := 0, cWaiting := false,
         msg := ⟨"_getInfo", a5, "", "", "6"⟩, status := .running },
       { myAddr := a3, identifier := 3, m := 3, store := [],
         ftab := [(4, a1), (5, a5), (7, a1)],
         successor := 5, successorAddr := a5, predecessor := 0, predecessorAddr := a1,
         successorAliveChannel := 0, predecessorAliveChannel := 0, cWaiting := false,
         msg := ⟨"_getInfo", a5, "", "", "6"⟩, status := .running },
       { myAddr := a5, identifier := 5, m := 3, store := [], ftab := [(1, a1), (7, a1)],
         successor := 1, successorAddr := a1, predecessor := 0, predecessorAddr := a3,
         successorAliveChannel := 0, predecessorAliveChannel := 0, cWaiting := false,
         msg := ⟨"_resInfo", a3, a5, "7", a1⟩, status := .running }]
    queue := [⟨a3, ⟨"_getInfo", a5, "", "", "6"⟩⟩]
    outside := [] }

/-- The successor pointers of a ring of three: that of `a1` names `a3`
(identifier 3), that of `a3` names `a5` (identifier 5), that of `a5` names
`a1` (identifier 1). -/
def ringOfThree (net : Net) (a1 a3 a5 : String) : Prop :=
  net.successorAt a1 = some (3, a3) ∧ net.successorAt a3 = some (5, a5) ∧
    net.successorAt a5 = some (1, a1)

instance (net : Net) (a1 a3 a5 : String) : Decidable (ringOfThree net a1 a3 a5) := by
  unfold ringOfThree
  exact inferInstance

/-! ## Executions of one node -/

/-- What the goroutines of a node do to its globals, one step at a time: the
receive loop handles a datagram, or one of the two liveness timers runs
out. -/
inductive Event where
  | datagram (d : Datagram)
  | successorTimeout
  | predecessorTimeout
deriving DecidableEq

/-- One step of a node that listens on its own address `myAddr`. -/
def fire (env : Env) (σ : Node) : Event → Run
  | .datagram d => startUpSystem env σ.myAddr σ d
  | .successorTimeout => successorTimeout env σ
  | .predecessorTimeout => predecessorTimeout σ

/-- The node after a sequence of steps, oldest first. -/
def runEvents (env : Env) : Node → List Event → Node
  | σ, [] => σ
  | σ, ev :: rest => runEvents env (fire env σ ev).node rest

/-- A node just started on `":6663"`: no successor, no predecessor. -/
def freshNodeThree : Node := mainInit testEnv ":6663"

/-- The node `":6663"` of the two-node ring of `":6661"` and `":6663"`, once
the join has come to rest: its successor is `":6661"` (identifier 1). -/
def nodeThreeOfTwo : Node :=
  (findNode (twoNodeRing testEnv ":6661" ":6663").nodes ":6663").getD freshNodeThree

/-- The identifier `t` is owned by the successor `suc` of the node `me`: it
lies in the clockwise arc from just after `me` up to and including `suc`. -/
def ownedBySuccessor (N me suc t : Int) : Prop :=
  0 < cwDist N me t ∧ cwDist N me t ≤ cwDist N me suc

instance (N me suc t : Int) : Decidable (ownedBySuccessor N me suc t) := by
  unfold ownedBySuccessor
  exact inferInstance

/-! ## Video segments (`src/clientstream/downloader.go`) -/

/-- Go `VidSegment`.  A byte is a natural number below 256; the code never
looks at the value of a byte. -/
structure VidSegment where
  Id : Nat
  Body : List Nat
deriving DecidableEq

/-- Go `Video`; the map `Segments` is an association list. -/
structure Video where
  Name : String
  SegNums : Nat
  SegsAvail : List Nat
  Segments : List (Nat × VidSegment)
deriving DecidableEq

/-- The package variable `bytecount`, assigned once, at its declaration. -/
def bytecount : Nat := 2048

/-- Go `vidmap[k] = seg`. -/
def vidmapSet : List (Nat × VidSegment) → Nat → VidSegment → List (Nat × VidSegment)
  | [], i, seg => [(i, seg)]
  | (k, v) :: rest, i, seg =>
    if k = i then (k, seg) :: rest else (k, v) :: vidmapSet rest i seg

/-- The variables of `convByteArrayToSeg` that outlive an iteration of its
loop (the counters of the progress display are left out). -/
structure SegLoop where
  vidmap : List (Nat × VidSegment)
  segsAvail : List Nat
  eightBSeg : List Nat
  counter : Nat
deriving DecidableEq

/-- The body of the loop `for index, element := range bytes` of
`convByteArrayToSeg`. -/
def segStep (s : SegLoop) (ie : Nat × Nat) : SegLoop :=
  let index := ie.1
  let element := ie.2
  let eightBSeg := s.eightBSeg ++ [element]
  if s.counter = bytecount then
    { vidmap := vidmapSet s.vidmap (index / bytecount + 1) ⟨index % bytecount + 1, eightBSeg⟩
      segsAvail := s.segsAvail ++ [index / bytecount + 1]
      eightBSeg := []
      counter := 0 + 1 }
  else
    { s with eightBSeg := eightBSeg, counter := s.counter + 1 }

/-- Go `convByteArrayToSeg`: the list of available segments and the map of
segments. -/
def convByteArrayToSeg (bytes : List Nat) : List Nat × List (Nat × VidSegment) :=
  let s := bytes.enum.foldl segStep ⟨[], [], [], 1⟩
  (s.segsAvail, s.vidmap)

/-- The `Video` that `processLocalVideosIntoFileSys` records for a file named
`name` whose contents are `dat`. -/
def videoOfFile (name : String) (dat : List Nat) : Video :=
  let r := convByteArrayToSeg dat
  { Name := name
    SegNums := dat.length / bytecount
    SegsAvail := r.1
    Segments := r.2 }

/-- What the loop of `convByteArrayToSeg` has established once the bytes `p`
have been visited. -/
def SegInv (s : SegLoop) (p : List Nat) : Prop :=
  s.counter = p.length % 2048 + 1 ∧
  s.eightBSeg.length = p.length % 2048 ∧
  (s.vidmap.map (fun e => e.2.Body)).flatten ++ s.eightBSeg = p ∧
  s.segsAvail = (List.range (p.length / 2048)).map (fun k => k + 1) ∧
  s.vidmap.map Prod.fst = (List.range (p.length / 2048)).map (fun k => k + 1) ∧
  ∀ e ∈ s.vidmap, e.2.Body.length = 2048 ∧ e.2.Id = 2048

/-- A history of one datagram: a proposal tagged `"successor"` sent by
`":6663"`. -/
def proposalHistory : List Event :=
  [.datagram (marshal ⟨"_proposal", ":6663", ":6661", "successor", "3"⟩)]

/-- A datagram that is valid JSON but gives only the tag and the key of a
proposal; the other fields of the envelope are absent. -/
def proposalWithoutSource : Datagram :=
  .object (some "_proposal") none none (some "successor") none

/-- A neighbour descriptor is set or unset as a unit: the identifier is `-1`
exactly when the address is empty. -/
def setAsUnit (identifier : Int) (addr : String) : Prop :=
  identifier = -1 ↔ addr = ""

instance (identifier : Int) (addr : String) : Decidable (setAsUnit identifier addr) := by
  unfold setAsUnit
  exact inferInstance

/-- The node `":6661"` of the two-node ring of `":6661"` and `":6663"`, once
the join has come to rest: its predecessor address is `":6663"`. -/
def nodeOneOfTwo : Node :=
  (findNode (twoNodeRing testEnv ":6661" ":6663").nodes ":6661").getD freshNode

/-- The node `":6661"`, started alone, after one locate-predecessor ack whose
key is `"4"` and whose value is the empty string. -/
def nodeAfterEmptyAck : Node :=
  runEvents testEnv freshNode
    [.datagram (marshal ⟨"_resLocPred", ":6663", ":6661", "4", ""⟩)]

/-- A proposal tagged `"successor"`, sent by `":6665"` to `":6661"`. -/
def proposalOfFive : Datagram :=
  marshal ⟨"_proposal", ":6665", ":6661", "successor", "5"⟩

end Channel

namespace Channel

/-! ## Arithmetic helpers -/

theorem cwDist_eq (N x y : Int) (hx : 0 ≤ x) (hxN : x < N) (hy : 0 ≤ y) (hyN : y < N) :
    cwDist N x y = if x ≤ y then y - x else y - x + N := by
  unfold cwDist
  split_ifs with h
  · exact Int.emod_eq_of_lt (by omega) (by omega)
  · have h1 : (y - x) % N = (y - x + N) % N := by simp
    rw [h1]
    exact Int.emod_eq_of_lt (by omega) (by omega)

theorem range_three : List.range 3 = [0, 1, 2] := by decide

theorem formatInt_lits :
    formatInt 1 = "1" ∧ formatInt 3 = "3" ∧ formatInt 4 = "4" ∧ formatInt 5 = "5" ∧
      formatInt 6 = "6" ∧ formatInt 7 = "7" := by
  decide

theorem parseInt_lits :
    parseInt "" = (0, false) ∧ parseInt "predecessor" = (0, false) ∧
      parseInt "1" = (1, true) ∧ parseInt "3" = (3, true) ∧ parseInt "4" = (4, true) ∧
      parseInt "5" = (5, true) ∧ parseInt "6" = (6, true) ∧ parseInt "7" = (7, true) := by
  decide

theorem Net.run_add (env : Env) (a b : Nat) (net : Net) :
    Net.run env (a + b) net = Net.run env b (Net.run env a net) := by
  induction a generalizing net with
  | zero => simp [Net.run]
  | succ a ih => rw [Nat.succ_add]; simp [Net.run, ih]

theorem wrapInt64_sub_inj (x y K : Int) (hx : -2 ^ 63 ≤ x ∧ x < 2 ^ 63)
    (hy : -2 ^ 63 ≤ y ∧ y < 2 ^ 63) (h : wrapInt64 (x - K) = wrapInt64 (y - K)) : x = y := by
  unfold wrapInt64 at h
  norm_num at hx hy h
  omega

/-- The address `closestNode` returns does not depend on the order in which
the entries of the routing cache are visited, as long as its keys are
distinct `int64` values. -/
theorem closestNode_perm (l₁ l₂ : List (Int × String)) (K : Int) (hp : l₁.Perm l₂)
    (hnd : (l₁.map Prod.fst).Nodup)
    (hr : ∀ e ∈ l₁, -2 ^ 63 ≤ e.1 ∧ e.1 < 2 ^ 63) :
    closestNode l₁ K = closestNode l₂ K := by
  unfold closestNode
  congr 1
  apply List.Perm.foldl_eq' hp
  intro x hx y hy z
  by_cases hxy : x = y
  · rw [hxy]
  · have hk : x.1 ≠ y.1 := by
      intro hk
      exact hxy (List.inj_on_of_nodup_map hnd hx hy hk)
    have hd : wrapInt64 (x.1 - K) ≠ wrapInt64 (y.1 - K) := fun h =>
      hk (wrapInt64_sub_inj x.1 y.1 K (hr x hx) (hr y hy) h)
    simp only
    split_ifs <;> first | rfl | (exfalso; omega)

/-! ## C1 -/

/-- C1: for identifiers of a ring of `2 ^ m` points, `betweenIdens suc me iden`
is true exactly when `iden` lies strictly inside the clockwise arc
`(me, suc)`, whether or not the arc wraps around (`suc < me`). -/
theorem betweenIdens_iff_insideArc (m : Nat) (suc me iden : Int)
    (hs : 0 ≤ suc ∧ suc < 2 ^ m) (hm : 0 ≤ me ∧ me < 2 ^ m)
    (hi : 0 ≤ iden ∧ iden < 2 ^ m) :
    betweenIdens suc me iden = true ↔ insideArc (2 ^ m) me suc iden := by
  unfold insideArc
  rw [cwDist_eq _ me iden hm.1 hm.2 hi.1 hi.2, cwDist_eq _ me suc hm.1 hm.2 hs.1 hs.2]
  generalize (2 : Int) ^ m = N at hs hm hi
  unfold betweenIdens
  split_ifs <;> simp <;> omega

/-- C1 at a wrapping arc: on the ring of 8 identifiers, 7 and 0 lie inside
the arc `(6, 2)`. -/
theorem betweenIdens_iff_insideArc_witness :
    (betweenIdens 2 6 7 = true ↔ insideArc (2 ^ 3) 6 2 7) ∧
    (betweenIdens 2 6 0 = true ∧ betweenIdens 2 6 2 = false) :=
  ⟨betweenIdens_iff_insideArc 3 2 6 7 (by decide) (by decide) (by decide), by decide⟩

/-! ## C2 -/

/-- C2: for a ring exponent `m` whose power of two fits `int64`,
`getIdentifier` depends on the address and on `m` only, equals the digest
modulo `2 ^ m`, and lies in `[0, 2 ^ m)`. -/
theorem getIdentifier_mod_range (env : Env) (m : Nat) (a : String) (hm : m < 63) :
    getIdentifier env m a = (env.sha1 a : Int) % 2 ^ m ∧
    0 ≤ getIdentifier env m a ∧ getIdentifier env m a < 2 ^ m ∧
    ∀ env2 : Env, env2.sha1 a = env.sha1 a → getIdentifier env2 m a = getIdentifier env m a := by
  have hpos : (0 : Int) < 2 ^ m := by positivity
  have heq : ∀ e : Env, getIdentifier e m a = (e.sha1 a : Int) % 2 ^ m := by
    intro e
    simp [getIdentifier, powerOfTwo, hm]
  refine ⟨heq env, ?_, ?_, ?_⟩
  · rw [heq]; exact Int.emod_nonneg _ (ne_of_gt hpos)
  · rw [heq]; exact Int.emod_lt_of_pos _ hpos
  · intro env2 h
    rw [heq, heq, h]

/-- C2 at the exponent the program uses, `m = 3`. -/
theorem getIdentifier_mod_range_witness :
    getIdentifier testEnv 3 ":6663" = (testEnv.sha1 ":6663" : Int) % 2 ^ 3 ∧
    0 ≤ getIdentifier testEnv 3 ":6663" ∧ getIdentifier testEnv 3 ":6663" < 2 ^ 3 ∧
    ∀ env2 : Env, env2.sha1 ":6663" = testEnv.sha1 ":6663" →
      getIdentifier env2 3 ":6663" = getIdentifier testEnv 3 ":6663" :=
  getIdentifier_mod_range testEnv 3 ":6663" (by decide)

/-! ## The switch, case by case -/

theorem handle_locPred (env : Env) (nodeAddr : String) (r : Run) (msg : CommandMessage) (k : Int)
    (h : msg.Cmd = "_locPred") :
    handle env nodeAddr r msg k = caseLocPred env r msg k nodeAddr := by
  simp [handle, h]

theorem handle_discover (env : Env) (nodeAddr : String) (r : Run) (msg : CommandMessage) (k : Int)
    (h : msg.Cmd = "_discover") :
    handle env nodeAddr r msg k = caseDiscover env r msg nodeAddr := by
  simp [handle, h]

/-- Bytes that are not valid JSON leave `msg` as it was, so the iteration
handles the envelope of the previous iteration once more. -/
theorem startUpSystem_garbage (env : Env) (nodeAddr : String) (σ : Node) :
    startUpSystem env nodeAddr σ Datagram.garbage =
      startUpSystem env nodeAddr σ (marshal σ.msg) := by
  simp [startUpSystem, unmarshal, marshal]

theorem handle_getVal (env : Env) (nodeAddr : String) (r : Run) (msg : CommandMessage) (k : Int)
    (h : msg.Cmd = "_getVal") :
    handle env nodeAddr r msg k = caseGetVal env r msg k nodeAddr := by
  simp [handle, h]

/-- What a node sends in answer to a get-value request is the same whatever
its store holds. -/
theorem getVal_reply_ignores_store (env : Env) (nodeAddr : String) (σ : Node)
    (st : List (String × String)) (d : Datagram)
    (hcmd : (unmarshal d σ.msg).Cmd = "_getVal") :
    (startUpSystem env nodeAddr { σ with store := st } d).sent =
      (startUpSystem env nodeAddr σ d).sent := by
  generalize hmsg : unmarshal d σ.msg = msg at hcmd
  by_cases hrun : σ.status = .running
  · simp only [startUpSystem, hrun, hmsg, if_true, handle_getVal _ _ _ _ _ hcmd]
    simp only [caseGetVal, getVal, sendToNextBestNode, sendMessage, Run.exit, Run.update, hrun]
    split_ifs <;> simp_all
  · simp [startUpSystem, hrun]

/-- The case `"_discover"` never assigns the predecessor identifier. -/
theorem discover_keeps_predecessor (env : Env) (nodeAddr : String) (σ : Node) (d : Datagram)
    (hcmd : (unmarshal d σ.msg).Cmd = "_discover") :
    (startUpSystem env nodeAddr σ d).node.predecessor = σ.predecessor := by
  generalize hmsg : unmarshal d σ.msg = msg at hcmd
  by_cases hrun : σ.status = .running
  · simp only [startUpSystem, hrun, hmsg, if_true, handle_discover _ _ _ _ _ hcmd]
    by_cases hs : σ.successor = -1
    · by_cases hd : env.dial msg.SourceAddr = true <;>
        simp [caseDiscover, sendMessage, Run.exit, Run.update, hrun, hs, hd]
    · by_cases hb : betweenIdens σ.successor σ.identifier
          (getIdentifier env σ.m msg.SourceAddr) = true
      · by_cases hd1 : env.dial σ.successorAddr = true <;>
          by_cases hd2 : env.dial msg.SourceAddr = true <;>
          simp [caseDiscover, sendPredInfo, sendMessage, Run.exit, Run.update, hrun, hs, hb,
            hd1, hd2]
      · by_cases hd : env.dial
            (closestNode σ.ftab (getIdentifier env σ.m msg.SourceAddr)) = true <;>
          simp [caseDiscover, sendToNextBestNode, sendMessage, Run.exit, Run.update, hrun, hs,
            hb, hd]
  · simp [startUpSystem, hrun]

/-! ## C3 -/

/-- C3 (the code departs from it): in the two-node ring of `":6661"` and
`":6663"`, a client sets `"k"` to `"v"` and then gets `"k"`.  Whichever node
receives the two requests, the value reply carries `":6663"`, the routing-cache
entry for the identifier of `"k"`, and not `"v"`; the pair `("k", "v")` sits
in the store of `":6661"`, which no case of the switch reads. -/
theorem setVal_then_getVal_returns_ftab_entry :
    getIdentifier testEnv 3 "k" = 3 ∧
    (setThenGet ":6661").outside =
      [⟨":7000", ⟨"_resGen", ":6661", ":7000", "", "Key Updated"⟩⟩,
        ⟨":7000", ⟨"_resVal", ":6661", ":7000", "k", ":6663"⟩⟩] ∧
    (setThenGet ":6663").outside = (setThenGet ":6661").outside ∧
    (setThenGet ":6661").queue = [] ∧ (setThenGet ":6663").queue = [] ∧
    ((setThenGet ":6661").ringAt ":6661").map (fun s => s.store) = some [("k", "v")] := by
  decide!

/-! ## C4 -/

/-- C4 (the code departs from it): a datagram that does not decode is not
discarded.  A fresh node that has answered a proposal from `":6663"` answers
it a second time when garbage arrives; and a node whose predecessor was set
by a predecessor notice and then cleared by the liveness timeout gets it set
again by garbage. -/
theorem garbage_datagram_replays_last_envelope :
    (startUpSystem testEnv ":6661"
        (startUpSystem testEnv ":6661" freshNode
          (marshal ⟨"_proposal", ":6663", ":6661", "successor", "3"⟩)).node
        Datagram.garbage).sent =
      [⟨":6663", ⟨"_resProposal", ":6661", ":6663", "successor", "1"⟩⟩] ∧
    ringState (predecessorTimeout
        (startUpSystem testEnv ":6661" freshNode
          (marshal ⟨"_resLocPred", ":6663", ":6661", "predecessor", ":6663"⟩)).node).node =
      ⟨-1, "", -1, "", [], []⟩ ∧
    ringState (startUpSystem testEnv ":6661"
        (predecessorTimeout
          (startUpSystem testEnv ":6661" freshNode
            (marshal ⟨"_resLocPred", ":6663", ":6661", "predecessor", ":6663"⟩)).node).node
        Datagram.garbage).node =
      ⟨-1, "", 0, ":6663", [], []⟩ := by
  decide!

/-! ## C5 -/

/-- C5 (the code departs from it): `a` listens alone and `b`, another
address, joins through it (both can be dialled).  After the four deliveries
of the handshake (discover and locate-predecessor handled by `a`, the two
replies handled by `b`) the successor descriptors and the predecessor
addresses are as expected, but the predecessor identifier of `a` is still
`-1` (unset) and that of `b` is `0`, the value `ParseInt` gives for the key
`"predecessor"` of the notice. -/
theorem two_node_bootstrap_predecessor_identifiers (env : Env) (a b : String)
    (hab : a ≠ b) (hda : env.dial a = true) (hdb : env.dial b = true) :
    (Net.run env 4 (twoNodeStart env a b)).ringAt a =
      some ⟨getIdentifier env 3 b, b, -1, b, [(getIdentifier env 3 b, b)], []⟩ ∧
    (Net.run env 4 (twoNodeStart env a b)).ringAt b =
      some ⟨getIdentifier env 3 a, a, 0, a, [], []⟩ := by
  have hba : b ≠ a := fun h => hab h.symm
  simp [twoNodeStart, Net.start, main, connectToSystem, locateSuccessor, locatePredecessor,
    sendMessage, Run.update, Run.exit, mainInit, hab, hba, hda, hdb, Net.deliver, findNode,
    putNode, startUpSystem, marshal, unmarshal, handle, caseDiscover, caseLocPred, caseResDisc,
    caseResLocPred, sendPredInfo, initFingerTable, getNodeInfo, range_three, parseInt_lits,
    ftabSet, Net.run, Net.ringAt, ringState]

/-- C5 at `":6661"` (identifier 1) and `":6663"` (identifier 3); the
predecessor identifiers are the same once the queue has emptied. -/
theorem two_node_bootstrap_predecessor_identifiers_witness :
    (getIdentifier testEnv 3 ":6661" = 1 ∧ getIdentifier testEnv 3 ":6663" = 3) ∧
    ((Net.run testEnv 4 (twoNodeStart testEnv ":6661" ":6663")).ringAt ":6661" =
        some ⟨getIdentifier testEnv 3 ":6663", ":6663", -1, ":6663",
          [(getIdentifier testEnv 3 ":6663", ":6663")], []⟩ ∧
      (Net.run testEnv 4 (twoNodeStart testEnv ":6661" ":6663")).ringAt ":6663" =
        some ⟨getIdentifier testEnv 3 ":6661", ":6661", 0, ":6661", [], []⟩) ∧
    (twoNodeRing testEnv ":6661" ":6663").queue = [] ∧
    (twoNodeRing testEnv ":6661" ":6663").ringAt ":6661" =
      some ⟨3, ":6663", -1, ":6663", [(3, ":6663")], []⟩ ∧
    (twoNodeRing testEnv ":6661" ":6663").ringAt ":6663" =
      some ⟨1, ":6661", 0, ":6661", [(4, ":6661"), (5, ":6661"), (7, ":6661")], []⟩ :=
  ⟨by decide,
    two_node_bootstrap_predecessor_identifiers testEnv ":6661" ":6663" (by decide) (by decide)
      (by decide),
    by decide!⟩

/-! ## C6 -/

set_option maxRecDepth 100000 in
set_option maxHeartbeats 4000000 in
theorem twoNodeRing_quiet (env : Env) (a1 a3 : String)
    (h1 : getIdentifier env 3 a1 = 1) (h3 : getIdentifier env 3 a3 = 3)
    (d1 : env.dial a1 = true) (d3 : env.dial a3 = true) :
    (twoNodeRing env a1 a3).queue = [] := by
  have h13 : a1 ≠ a3 := by
    intro h; rw [h] at h1; omega
  have h31 : a3 ≠ a1 := fun h => h13 h.symm
  simp [twoNodeRing, twoNodeStart, Net.start, main, connectToSystem, locateSuccessor,
    locatePredecessor, sendMessage, Run.update, Run.exit, mainInit, h13, h31, d1, d3,
    Net.deliver, findNode, putNode, startUpSystem, marshal, unmarshal, handle, caseDiscover,
    caseLocPred, caseResDisc, caseResLocPred, caseResInfo, provideInfo, sendPredInfo,
    sendToNextBestNode, closestNode, initFingerTable, getNodeInfo, fingerKey, h1, h3,
    range_three, formatInt_lits, parseInt_lits, betweenIdens, wrapInt64, maxInt64, ftabGet,
    ftabSet, Net.run]

set_option maxRecDepth 100000 in
set_option maxHeartbeats 4000000 in
theorem threeNode_run18 (env : Env) (a1 a3 a5 : String)
    (h1 : getIdentifier env 3 a1 = 1) (h3 : getIdentifier env 3 a3 = 3)
    (h5 : getIdentifier env 3 a5 = 5)
    (d1 : env.dial a1 = true) (d3 : env.dial a3 = true) (d5 : env.dial a5 = true) :
    Net.run env 18 (threeNodeStart env a1 a3 a5) = threeNodeLoop a1 a3 a5 := by
  have h13 : a1 ≠ a3 := by
    intro h; rw [h] at h1; omega
  have h15 : a1 ≠ a5 := by
    intro h; rw [h] at h1; omega
  have h35 : a3 ≠ a5 := by
    intro h; rw [h] at h3; omega
  have h31 : a3 ≠ a1 := fun h => h13 h.symm
  have h51 : a5 ≠ a1 := fun h => h15 h.symm
  have h53 : a5 ≠ a3 := fun h => h35 h.symm
  simp [threeNodeStart, threeNodeLoop, twoNodeRing, twoNodeStart, Net.start, main,
    connectToSystem, locateSuccessor, locatePredecessor, sendMessage, Run.update, Run.exit,
    mainInit, h13, h15, h35, h31, h51, h53, d1, d3, d5, Net.deliver, findNode, putNode,
    startUpSystem, marshal, unmarshal, handle, caseDiscover, caseLocPred, caseResDisc,
    caseResLocPred, caseResInfo, provideInfo, sendPredInfo, sendToNextBestNode, closestNode,
    initFingerTable, getNodeInfo, fingerKey, h1, h3, h5, range_three, formatInt_lits,
    parseInt_lits, betweenIdens, wrapInt64, maxInt64, ftabGet, ftabSet, Net.run]

set_option maxRecDepth 100000 in
theorem threeNodeLoop_cycles (env : Env) (a1 a3 a5 : String)
    (h13 : a1 ≠ a3) (h15 : a1 ≠ a5) (h35 : a3 ≠ a5)
    (d1 : env.dial a1 = true) (d3 : env.dial a3 = true) :
    ((threeNodeLoop a1 a3 a5).deliver env).deliver env = threeNodeLoop a1 a3 a5 := by
  have h31 : a3 ≠ a1 := fun h => h13 h.symm
  have h51 : a5 ≠ a1 := fun h => h15 h.symm
  have h53 : a5 ≠ a3 := fun h => h35 h.symm
  simp [threeNodeLoop, h13, h15, h35, h31, h51, h53, d1, d3, Net.deliver, findNode, putNode,
    startUpSystem, marshal, unmarshal, handle, provideInfo, sendToNextBestNode, sendMessage,
    Run.update, Run.exit, closestNode, parseInt_lits, betweenIdens, wrapInt64, maxInt64,
    ftabGet]

set_option maxRecDepth 100000 in
theorem threeNodeLoop_ring (env : Env) (a1 a3 a5 : String)
    (h13 : a1 ≠ a3) (h15 : a1 ≠ a5) (h35 : a3 ≠ a5)
    (d1 : env.dial a1 = true) (d3 : env.dial a3 = true) (k : Nat) :
    ringOfThree (Net.run env k (threeNodeLoop a1 a3 a5)) a1 a3 a5 := by
  have h31 : a3 ≠ a1 := fun h => h13 h.symm
  have h51 : a5 ≠ a1 := fun h => h15 h.symm
  have h53 : a5 ≠ a3 := fun h => h35 h.symm
  have key : ∀ k net,
      (net = threeNodeLoop a1 a3 a5 ∨ net = (threeNodeLoop a1 a3 a5).deliver env) →
      (Net.run env k net = threeNodeLoop a1 a3 a5 ∨
        Net.run env k net = (threeNodeLoop a1 a3 a5).deliver env) := by
    intro k
    induction k with
    | zero => intro net h; simpa [Net.run] using h
    | succ k ih =>
      intro net h
      rw [Net.run]
      apply ih
      rcases h with h | h
      · right; rw [h]
      · left; rw [h, threeNodeLoop_cycles env a1 a3 a5 h13 h15 h35 d1 d3]
  rcases key k _ (Or.inl rfl) with h | h
  · rw [h]
    simp [ringOfThree, Net.successorAt, threeNodeLoop, findNode, h13, h15, h35, h31, h51, h53]
  · rw [h]
    simp [ringOfThree, Net.successorAt, threeNodeLoop, findNode, h13, h15, h35, h31, h51, h53,
      d1, d3, Net.deliver, findNode, putNode, startUpSystem, marshal, unmarshal, handle,
      provideInfo, sendToNextBestNode, sendMessage, Run.update, Run.exit, closestNode,
      parseInt_lits, betweenIdens, wrapInt64, maxInt64, ftabGet]

/-- C6: three addresses with the identifiers 1, 3 and 5 that can be dialled.
Node 1 listens alone, node 3 joins through it, and when that join has come to
rest (the queue is empty) node 5 joins through node 1, every datagram being
delivered in the order sent.  From the 18th delivery on, when of all the
datagrams of the two joins only one probe of node 5 is still travelling, the
successor pointer of node 1 names node 3, that of node 3 names node 5 and
that of node 5 names node 1, at every later moment. -/
theorem three_node_ring_successors (env : Env) (a1 a3 a5 : String)
    (h1 : getIdentifier env 3 a1 = 1) (h3 : getIdentifier env 3 a3 = 3)
    (h5 : getIdentifier env 3 a5 = 5)
    (d1 : env.dial a1 = true) (d3 : env.dial a3 = true) (d5 : env.dial a5 = true)
    (n : Nat) (hn : 18 ≤ n) :
    (twoNodeRing env a1 a3).queue = [] ∧
    ringOfThree (Net.run env n (threeNodeStart env a1 a3 a5)) a1 a3 a5 := by
  have h13 : a1 ≠ a3 := by
    intro h; rw [h] at h1; omega
  have h15 : a1 ≠ a5 := by
    intro h; rw [h] at h1; omega
  have h35 : a3 ≠ a5 := by
    intro h; rw [h] at h3; omega
  refine ⟨twoNodeRing_quiet env a1 a3 h1 h3 d1 d3, ?_⟩
  obtain ⟨k, rfl⟩ := Nat.exists_eq_add_of_le hn
  rw [Net.run_add, threeNode_run18 env a1 a3 a5 h1 h3 h5 d1 d3 d5]
  exact threeNodeLoop_ring env a1 a3 a5 h13 h15 h35 d1 d3 k

/-- C6 at the addresses `":6661"`, `":6663"` and `":6665"`, after 40
deliveries. -/
theorem three_node_ring_successors_witness :
    (twoNodeRing testEnv ":6661" ":6663").queue = [] ∧
    ringOfThree (Net.run testEnv 40 (threeNodeStart testEnv ":6661" ":6663" ":6665"))
      ":6661" ":6663" ":6665" :=
  three_node_ring_successors testEnv ":6661" ":6663" ":6665" (by decide) (by decide) (by decide)
    (by decide) (by decide) (by decide) 40 (by decide)

/-! ## C7 -/

/-- C7 (the code departs from it): with the routing cache node `":6663"` has
in the three-node ring and the target 6, the entry at the least clockwise
distance from the target is 5 (`":6665"`), yet `sendToNextBestNode` sends to
`":6661"`, the entry 4 with the least signed difference `nodeIden - 6`. -/
theorem sendToNextBestNode_uses_signed_difference :
    ((Net.run testEnv 18 (threeNodeStart testEnv ":6661" ":6663" ":6665")).ringAt ":6663").map
        (fun s => s.ftab) = some [(4, ":6661"), (5, ":6665"), (7, ":6661")] ∧
    cwDist (2 ^ 3) 5 6 = 1 ∧ cwDist (2 ^ 3) 4 6 = 2 ∧ cwDist (2 ^ 3) 7 6 = 7 ∧
    closestNode [(4, ":6661"), (5, ":6665"), (7, ":6661")] 6 = ":6661" ∧
    (sendToNextBestNode testEnv
        ⟨{ mainInit testEnv ":6663" with ftab := [(4, ":6661"), (5, ":6665"), (7, ":6661")] }, []⟩
        6 ⟨"_getInfo", ":6665", "", "", "6"⟩).sent =
      [⟨":6661", ⟨"_getInfo", ":6665", "", "", "6"⟩⟩] := by
  decide!

/-! ## C8 -/

/-- C8 (the code departs from it): a fresh node handling a discover request
from `":6663"` (identifier 3) sends one discover-ack naming itself and takes
the joiner as successor (identifier and address) and as predecessor address,
but its predecessor identifier stays `-1`. -/
theorem discover_noSuccessor_leaves_predecessor_identifier :
    getIdentifier testEnv 3 ":6663" = 3 ∧
    (startUpSystem testEnv ":6661" freshNode (marshal ⟨"_discover", ":6663", "", "", ""⟩)).sent =
      [⟨":6663", ⟨"_resDisc", ":6661", ":6663", "", ":6661"⟩⟩] ∧
    ringState (startUpSystem testEnv ":6661" freshNode
        (marshal ⟨"_discover", ":6663", "", "", ""⟩)).node =
      ⟨3, ":6663", -1, ":6663", [(3, ":6663")], []⟩ := by
  decide!

/-! ## C9 -/

/-- C9: a running node with a successor `S`, handling a discover request of
a joiner `J` whose identifier `betweenIdens` places between the node and `S`
(both addresses can be dialled), sends in this order a predecessor notice
naming `J` to `S`, a predecessor notice naming itself to `J`, and a
discover-ack to `J` whose value is the address of `S`; afterwards its
successor identifier and address are those of `J` and its predecessor fields
are as before. -/
theorem discover_between_splices_joiner (env : Env) (nodeAddr : String) (σ : Node) (d : Datagram)
    (hrun : σ.status = .running)
    (hcmd : (unmarshal d σ.msg).Cmd = "_discover")
    (hsucc : σ.successor ≠ -1)
    (hbtw : betweenIdens σ.successor σ.identifier
      (getIdentifier env σ.m (unmarshal d σ.msg).SourceAddr) = true)
    (hdialS : env.dial σ.successorAddr = true)
    (hdialJ : env.dial (unmarshal d σ.msg).SourceAddr = true) :
    (startUpSystem env nodeAddr σ d).sent =
      [⟨σ.successorAddr,
          ⟨"_resLocPred", σ.myAddr, σ.successorAddr, "predecessor",
            (unmarshal d σ.msg).SourceAddr⟩⟩,
        ⟨(unmarshal d σ.msg).SourceAddr,
          ⟨"_resLocPred", σ.myAddr, (unmarshal d σ.msg).SourceAddr, "predecessor", σ.myAddr⟩⟩,
        ⟨(unmarshal d σ.msg).SourceAddr,
          ⟨"_resDisc", nodeAddr, (unmarshal d σ.msg).SourceAddr, "", σ.successorAddr⟩⟩] ∧
    (startUpSystem env nodeAddr σ d).node.successor =
      getIdentifier env σ.m (unmarshal d σ.msg).SourceAddr ∧
    (startUpSystem env nodeAddr σ d).node.successorAddr = (unmarshal d σ.msg).SourceAddr ∧
    (startUpSystem env nodeAddr σ d).node.predecessor = σ.predecessor ∧
    (startUpSystem env nodeAddr σ d).node.predecessorAddr = σ.predecessorAddr ∧
    (startUpSystem env nodeAddr σ d).node.status = .running := by
  generalize hmsg : unmarshal d σ.msg = msg at hcmd hdialJ hbtw ⊢
  simp only [startUpSystem, hrun, hmsg, if_true, handle_discover _ _ _ _ _ hcmd]
  simp [caseDiscover, sendPredInfo, sendMessage, Run.exit, Run.update, hrun, hsucc, hbtw,
    hdialS, hdialJ]

/-- C9 at the node `":6661"` (identifier 1) with successor `":6665"`
(identifier 5) and the joiner `":6663"` (identifier 3). -/
theorem discover_between_splices_joiner_witness :
    (startUpSystem testEnv ":6661" nodeOneBeforeFive
        (marshal ⟨"_discover", ":6663", "", "", ""⟩)).sent =
      [⟨":6665", ⟨"_resLocPred", ":6661", ":6665", "predecessor", ":6663"⟩⟩,
        ⟨":6663", ⟨"_resLocPred", ":6661", ":6663", "predecessor", ":6661"⟩⟩,
        ⟨":6663", ⟨"_resDisc", ":6661", ":6663", "", ":6665"⟩⟩] ∧
    (startUpSystem testEnv ":6661" nodeOneBeforeFive
      (marshal ⟨"_discover", ":6663", "", "", ""⟩)).node.successor = 3 :=
  have h := discover_between_splices_joiner testEnv ":6661" nodeOneBeforeFive
    (marshal ⟨"_discover", ":6663", "", "", ""⟩) (by decide) (by decide) (by decide) (by decide)
    (by decide) (by decide)
  ⟨h.1, h.2.1.trans (by decide)⟩

/-! ## C10 -/

/-- C10: a running node handling a locate-predecessor request whose requester
can be dialled sends the requester a predecessor-ack exactly when the
address of the requester is the recorded successor address; in that case the
ack is the only datagram sent and its value is the address the node listens
on; in every case the ring state is as before. -/
theorem locPred_ack_iff_recorded_successor (env : Env) (nodeAddr : String) (σ : Node)
    (d : Datagram)
    (hrun : σ.status = .running)
    (hcmd : (unmarshal d σ.msg).Cmd = "_locPred")
    (hdial : env.dial (unmarshal d σ.msg).SourceAddr = true) :
    ((∃ p ∈ (startUpSystem env nodeAddr σ d).sent,
        p.addr = (unmarshal d σ.msg).SourceAddr ∧ p.msg.Cmd = "_resLocPred") ↔
      (unmarshal d σ.msg).SourceAddr = σ.successorAddr) ∧
    ((unmarshal d σ.msg).SourceAddr = σ.successorAddr →
      (startUpSystem env nodeAddr σ d).sent =
        [⟨(unmarshal d σ.msg).SourceAddr,
          ⟨"_resLocPred", σ.myAddr, (unmarshal d σ.msg).SourceAddr, "predecessor", nodeAddr⟩⟩]) ∧
    ringState (startUpSystem env nodeAddr σ d).node = ringState σ := by
  generalize hmsg : unmarshal d σ.msg = msg at hcmd hdial ⊢
  simp only [startUpSystem, hrun, hmsg, if_true, handle_locPred _ _ _ _ _ hcmd]
  simp only [caseLocPred, sendPredInfo, sendToNextBestNode, sendMessage, Run.exit, Run.update,
    hrun]
  by_cases hs : msg.SourceAddr = σ.successorAddr
  · simp [← hs, hdial, ringState]
  · simp only [hs, if_false, if_true]
    by_cases hd : env.dial (closestNode σ.ftab (parseInt msg.Key).1) = true
    · simp [hd, ringState, hcmd]
    · simp [hd, ringState]

/-- C10 at the node `":6661"` with recorded successor `":6665"`: the request
of `":6665"` is acknowledged. -/
theorem locPred_ack_iff_recorded_successor_witness :
    (startUpSystem testEnv ":6661" nodeOneBeforeFive
        (marshal ⟨"_locPred", ":6665", "", "5", ""⟩)).sent =
      [⟨":6665", ⟨"_resLocPred", ":6661", ":6665", "predecessor", ":6661"⟩⟩] :=
  (locPred_ack_iff_recorded_successor testEnv ":6661" nodeOneBeforeFive
    (marshal ⟨"_locPred", ":6665", "", "5", ""⟩) (by decide) (by decide) (by decide)).2.1
    (by decide)

/-! ## Reading back what `FormatInt` wrote -/

theorem digitChar_isDigit (k : Nat) (hk : k < 10) :
    (Nat.digitChar k).isDigit = true ∧ (Nat.digitChar k).toNat - 48 = k := by
  interval_cases k <;> decide

theorem digitsValue_append (pre : List Char) (d : Char) :
    digitsValue (pre ++ [d]) = 10 * digitsValue pre + (d.toNat - 48) := by
  simp [digitsValue, List.foldl_append]

theorem toDigitsCore_spec (fuel : Nat) : ∀ (n : Nat) (ds : List Char), n < fuel →
    ∃ pre : List Char, Nat.toDigitsCore 10 fuel n ds = pre ++ ds ∧ pre ≠ [] ∧
      pre.all Char.isDigit = true ∧ digitsValue pre = n := by
  induction fuel with
  | zero => intro n ds h; omega
  | succ fuel ih =>
    intro n ds h
    have hd := digitChar_isDigit (n % 10) (Nat.mod_lt _ (by decide))
    by_cases h0 : n / 10 = 0
    · refine ⟨[Nat.digitChar (n % 10)], ?_, by simp, ?_, ?_⟩
      · simp [Nat.toDigitsCore, h0]
      · simp [hd.1]
      · have hn : n % 10 = n := by omega
        have h2 := hd.2
        simp only [digitsValue, List.foldl]
        omega
    · obtain ⟨pre, hpre, hne, hall, hval⟩ := ih (n / 10) (Nat.digitChar (n % 10) :: ds) (by omega)
      refine ⟨pre ++ [Nat.digitChar (n % 10)], ?_, by simp, ?_, ?_⟩
      · simp [Nat.toDigitsCore, h0, hpre]
      · simp [List.all_append, hall, hd.1]
      · rw [digitsValue_append, hval, hd.2]; omega

theorem repr_spec (n : Nat) :
    ∃ c cs, (Nat.repr n).toList = c :: cs ∧ c.isDigit = true ∧
      (c :: cs).all Char.isDigit = true ∧ digitsValue (c :: cs) = n := by
  obtain ⟨pre, hpre, hne, hall, hval⟩ := toDigitsCore_spec (n + 1) n [] (by omega)
  cases pre with
  | nil => exact absurd rfl hne
  | cons c cs =>
    refine ⟨c, cs, ?_, ?_, hall, hval⟩
    · simp [Nat.repr, Nat.toDigits, hpre, List.asString]
    · simp [List.all_cons] at hall
      exact hall.1

theorem all_isDigit_cons (c : Char) (cs : List Char)
    (hall : (c :: cs).all Char.isDigit = true) :
    c.isDigit = true ∧ ¬ ∃ x ∈ cs, x.isDigit = false := by
  simp only [List.all_cons, Bool.and_eq_true, List.all_eq_true] at hall
  refine ⟨hall.1, ?_⟩
  rintro ⟨x, hx, hf⟩
  rw [hall.2 x hx] at hf
  exact absurd hf (by decide)

theorem parseInt_of_digits (c : Char) (cs : List Char) (s : String) (hs : s.toList = c :: cs)
    (hall : (c :: cs).all Char.isDigit = true)
    (hlt : digitsValue (c :: cs) < 2 ^ 63) :
    parseInt s = ((digitsValue (c :: cs) : Int), true) := by
  obtain ⟨hc, hcs⟩ := all_isDigit_cons c cs hall
  have hplus : c ≠ '+' := by
    intro h; rw [h] at hc; exact absurd hc (by decide)
  have hminus : c ≠ '-' := by
    intro h; rw [h] at hc; exact absurd hc (by decide)
  have hlt2 : digitsValue (c :: cs) < 9223372036854775808 := by omega
  unfold parseInt
  rw [hs]
  simp [hplus, hminus, hc, hcs, hlt2]

theorem parseInt_of_minus_digits (c : Char) (cs : List Char) (s : String)
    (hs : s.toList = '-' :: c :: cs)
    (hall : (c :: cs).all Char.isDigit = true)
    (hle : digitsValue (c :: cs) ≤ 2 ^ 63) :
    parseInt s = (-(digitsValue (c :: cs) : Int), true) := by
  obtain ⟨hc, hcs⟩ := all_isDigit_cons c cs hall
  have hlt2 : ¬ (9223372036854775808 < digitsValue (c :: cs)) := by omega
  unfold parseInt
  rw [hs]
  simp [hc, hcs, hlt2]

/-- What `strconv.FormatInt` writes for an `int64`, `strconv.ParseInt` reads
back without error. -/
theorem parseInt_formatInt (i : Int) (hlo : -2 ^ 63 ≤ i) (hhi : i < 2 ^ 63) :
    parseInt (formatInt i) = (i, true) := by
  unfold formatInt
  split_ifs with hneg
  · obtain ⟨c, cs, hl, hc, hall, hval⟩ := repr_spec i.natAbs
    have hs : ("-" ++ Nat.repr i.natAbs).toList = '-' :: c :: cs := by
      show ("-" ++ Nat.repr i.natAbs).data = _
      rw [String.data_append, show (Nat.repr i.natAbs).data = c :: cs from hl]
      rfl
    rw [parseInt_of_minus_digits c cs _ hs hall (by rw [hval]; omega), hval]
    congr 1
    omega
  · obtain ⟨c, cs, hl, hc, hall, hval⟩ := repr_spec i.toNat
    rw [parseInt_of_digits c cs _ hl hall (by rw [hval]; omega), hval]
    congr 1
    omega

/-! ## C11 -/

theorem foldl_getNodeInfo_sent (env : Env) (nodeAddr : String) (g : Nat → Int) (l : List Nat) :
    ∀ r : Run, r.node.status = .running → env.dial r.node.successorAddr = true →
      l.foldl (fun acc i => getNodeInfo env acc nodeAddr (g i)) r =
        ⟨r.node, r.sent ++ l.map (fun i =>
          ⟨r.node.successorAddr, ⟨"_getInfo", nodeAddr, "", "", formatInt (g i)⟩⟩)⟩ := by
  induction l with
  | nil => intro r _ _; simp
  | cons i l ih =>
    intro r hrun hdial
    have hstep : getNodeInfo env r nodeAddr (g i) =
        ⟨r.node, r.sent ++ [⟨r.node.successorAddr,
          ⟨"_getInfo", nodeAddr, "", "", formatInt (g i)⟩⟩]⟩ := by
      simp [getNodeInfo, sendMessage, hrun, hdial]
    rw [List.foldl_cons, hstep]
    refine (ih (Run.mk r.node (r.sent ++ [Packet.mk r.node.successorAddr
      (CommandMessage.mk "_getInfo" nodeAddr "" "" (formatInt (g i)))])) hrun hdial).trans ?_
    simp

theorem fingerKey_range (id : Int) (m i : Nat) (hid : 0 ≤ id ∧ id < 2 ^ m) (hi : i < m) :
    0 ≤ fingerKey id m i ∧ fingerKey id m i < 2 ^ m ∧ fingerKey id m i ≠ id := by
  have hpos : (0 : Int) < 2 ^ i := by positivity
  have hlt : (2 : Int) ^ i < 2 ^ m := pow_lt_pow_right₀ (by norm_num) hi
  unfold fingerKey
  generalize (2 : Int) ^ i = p at hpos hlt
  generalize (2 : Int) ^ m = N at hid hlt
  have hN : (0 : Int) < N := by omega
  refine ⟨Int.emod_nonneg _ (by omega), Int.emod_lt_of_pos _ hN, ?_⟩
  by_cases h : id + p < N
  · rw [Int.emod_eq_of_lt (by omega) h]; omega
  · have h1 : (id + p) % N = (id + p - N) % N := by simp
    rw [h1, Int.emod_eq_of_lt (by omega) (by omega)]; omega

/-- C11: a running node whose successor address can be dialled, with a ring
exponent `m` of at most 52 (so that the `float64` arithmetic of the source is
exact).  `initFingerTable` sends exactly `m` get-info requests, all to the
successor address, the `i`-th (`i = 0 .. m - 1`) naming the target
`(id + 2 ^ i) mod 2 ^ m`, where `id` is the identifier of the node address;
each target lies in `[0, 2 ^ m)`, differs from `id`, and is read back from the
request by `ParseInt`. -/
theorem initFingerTable_probes (env : Env) (r : Run) (nodeAddr : String)
    (hrun : r.node.status = .running) (hdial : env.dial r.node.successorAddr = true)
    (hm : r.node.m ≤ 52) :
    (initFingerTable env r nodeAddr).sent =
      r.sent ++ (List.range r.node.m).map (fun i =>
        ⟨r.node.successorAddr,
          ⟨"_getInfo", nodeAddr, "", "",
            formatInt ((getIdentifier env r.node.m nodeAddr + 2 ^ i) % 2 ^ r.node.m)⟩⟩) ∧
    ((initFingerTable env r nodeAddr).sent.length = r.sent.length + r.node.m) ∧
    ∀ i, i < r.node.m →
      0 ≤ (getIdentifier env r.node.m nodeAddr + 2 ^ i) % 2 ^ r.node.m ∧
      (getIdentifier env r.node.m nodeAddr + 2 ^ i) % 2 ^ r.node.m < 2 ^ r.node.m ∧
      (getIdentifier env r.node.m nodeAddr + 2 ^ i) % 2 ^ r.node.m ≠
        getIdentifier env r.node.m nodeAddr ∧
      parseInt (formatInt ((getIdentifier env r.node.m nodeAddr + 2 ^ i) % 2 ^ r.node.m)) =
        ((getIdentifier env r.node.m nodeAddr + 2 ^ i) % 2 ^ r.node.m, true) := by
  have hsent : (initFingerTable env r nodeAddr).sent =
      r.sent ++ (List.range r.node.m).map (fun i =>
        ⟨r.node.successorAddr,
          ⟨"_getInfo", nodeAddr, "", "",
            formatInt ((getIdentifier env r.node.m nodeAddr + 2 ^ i) % 2 ^ r.node.m)⟩⟩) := by
    unfold initFingerTable
    simp only [foldl_getNodeInfo_sent env nodeAddr _ _ r hrun hdial, fingerKey]
  have hid : 0 ≤ getIdentifier env r.node.m nodeAddr ∧
      getIdentifier env r.node.m nodeAddr < 2 ^ r.node.m := by
    have hpos : (0 : Int) < 2 ^ r.node.m := by positivity
    have h63 : r.node.m < 63 := by omega
    simp only [getIdentifier, powerOfTwo, h63, if_true]
    exact ⟨Int.emod_nonneg _ (ne_of_gt hpos), Int.emod_lt_of_pos _ hpos⟩
  refine ⟨hsent, ?_, ?_⟩
  · rw [hsent]; simp
  · intro i hi
    have hk := fingerKey_range _ r.node.m i hid hi
    unfold fingerKey at hk
    refine ⟨hk.1, hk.2.1, hk.2.2, parseInt_formatInt _ (by omega) ?_⟩
    have h2 : (2 : Int) ^ r.node.m ≤ 2 ^ 63 := pow_le_pow_right₀ (by norm_num) (by omega)
    omega

/-- C11 at the node `":6663"` of the two-node ring (`m = 3`, identifier 3):
the three probes name 4, 5 and 7. -/
theorem initFingerTable_probes_witness :
    (initFingerTable testEnv ⟨nodeThreeOfTwo, []⟩ ":6663").sent =
      [⟨":6661", ⟨"_getInfo", ":6663", "", "", "4"⟩⟩,
        ⟨":6661", ⟨"_getInfo", ":6663", "", "", "5"⟩⟩,
        ⟨":6661", ⟨"_getInfo", ":6663", "", "", "7"⟩⟩] :=
  (initFingerTable_probes testEnv ⟨nodeThreeOfTwo, []⟩ ":6663" (by decide!) (by decide!)
    (by decide!)).1.trans (by decide!)

/-! ## C12 -/

/-- C12, as stated, fails: the node started on `":6661"` with itself as
starter node has identifier 1, and neither its successor nor its predecessor
points to itself. -/
theorem first_node_not_its_own_successor :
    (main testEnv ":6661" ":6661").node.identifier = 1 ∧
    ringState (main testEnv ":6661" ":6661").node = ⟨-1, "", -1, "", [], []⟩ ∧
    (main testEnv ":6661" ":6661").node.successor ≠ (main testEnv ":6661" ":6661").node.identifier ∧
    (main testEnv ":6661" ":6661").node.successorAddr ≠ (main testEnv ":6661" ":6661").node.myAddr ∧
    (main testEnv ":6661" ":6661").node.predecessor ≠ (main testEnv ":6661" ":6661").node.identifier ∧
    (main testEnv ":6661" ":6661").node.predecessorAddr ≠
      (main testEnv ":6661" ":6661").node.myAddr := by
  decide!

/-- C12, amended: a node started with its own address as starter node sends
nothing and starts alone with both neighbours unset: successor and
predecessor identifiers are `-1`, both addresses are empty, the routing cache
and the store are empty, and its identifier is that of its address. -/
theorem first_node_starts_unset (env : Env) (myAddr : String) :
    (main env myAddr myAddr).sent = [] ∧
    ringState (main env myAddr myAddr).node = ⟨-1, "", -1, "", [], []⟩ ∧
    (main env myAddr myAddr).node.identifier = getIdentifier env 3 myAddr ∧
    (main env myAddr myAddr).node.myAddr = myAddr ∧
    (main env myAddr myAddr).node.status = .running := by
  simp [main, mainInit, ringState]

/-! ## C13 -/

theorem handle_proposal (env : Env) (nodeAddr : String) (r : Run) (msg : CommandMessage) (k : Int)
    (h : msg.Cmd = "_proposal") :
    handle env nodeAddr r msg k = caseProposal env r msg := by
  simp [handle, h]

theorem handle_resProposal (env : Env) (nodeAddr : String) (r : Run) (msg : CommandMessage)
    (k : Int) (h : msg.Cmd = "_resProposal") :
    handle env nodeAddr r msg k = caseResProposal env r msg := by
  simp [handle, h]

/-- C13, as stated, fails.  The node `":6661"` that has handled a
locate-predecessor ack with key `"4"` and an empty value holds the
predecessor identifier 4 and no predecessor address: handling a proposal
tagged `"successor"` it sends nothing, neither an ack nor the envelope.  The
node `":6661"` of the two-node ring holds the predecessor address `":6663"`
and the predecessor identifier `-1`: it does not pass the proposal on to
`":6663"`, it answers the proposer with an ack. -/
theorem proposal_neither_ack_nor_forward :
    (nodeAfterEmptyAck.status = .running ∧ nodeAfterEmptyAck.predecessor = 4 ∧
      nodeAfterEmptyAck.predecessorAddr = "" ∧
      (startUpSystem testEnv ":6661" nodeAfterEmptyAck proposalOfFive).sent = []) ∧
    (nodeOneOfTwo.status = .running ∧ nodeOneOfTwo.predecessor = -1 ∧
      nodeOneOfTwo.predecessorAddr = ":6663" ∧
      (startUpSystem testEnv ":6661" nodeOneOfTwo proposalOfFive).sent =
        [⟨":6665", ⟨"_resProposal", ":6661", ":6665", "successor", "1"⟩⟩]) := by
  decide!

/-- C13, amended: a running node whose predecessor is set as a unit (the
identifier is `-1` exactly when the address is empty), handling a proposal
tagged `"successor"`.  With no predecessor and a proposer that can be
dialled, it sends exactly one datagram: a proposal-ack to the proposer,
carrying its own address and its own identifier.  With a predecessor that can
be dialled, it sends exactly one datagram: the envelope as decoded, to the
predecessor address.  The ring state is the same afterwards in both cases. -/
theorem proposal_ack_or_forward (env : Env) (nodeAddr : String) (σ : Node) (d : Datagram)
    (hrun : σ.status = .running)
    (hunit : setAsUnit σ.predecessor σ.predecessorAddr)
    (hcmd : (unmarshal d σ.msg).Cmd = "_proposal")
    (hkey : (unmarshal d σ.msg).Key = "successor") :
    (σ.predecessor = -1 → env.dial (unmarshal d σ.msg).SourceAddr = true →
      (startUpSystem env nodeAddr σ d).sent =
        [⟨(unmarshal d σ.msg).SourceAddr,
          ⟨"_resProposal", σ.myAddr, (unmarshal d σ.msg).SourceAddr, "successor",
            formatInt σ.identifier⟩⟩]) ∧
    (σ.predecessor ≠ -1 → env.dial σ.predecessorAddr = true →
      (startUpSystem env nodeAddr σ d).sent = [⟨σ.predecessorAddr, unmarshal d σ.msg⟩]) ∧
    ringState (startUpSystem env nodeAddr σ d).node = ringState σ := by
  generalize hmsg : unmarshal d σ.msg = msg at hcmd hkey ⊢
  simp only [startUpSystem, hrun, hmsg, if_true, handle_proposal _ _ _ _ _ hcmd]
  refine ⟨?_, ?_, ?_⟩
  · intro hp hd
    simp [caseProposal, sendMessage, hrun, hkey, hp, hd]
  · intro hp hd
    have ha : σ.predecessorAddr ≠ "" := fun h => hp (hunit.2 h)
    simp [caseProposal, sendMessage, hrun, hkey, hp, ha, hd]
  · by_cases hp : σ.predecessor = -1
    · by_cases hd : env.dial msg.SourceAddr = true <;>
        simp [caseProposal, sendMessage, Run.exit, Run.update, hrun, hkey, hp, hd, ringState]
    · by_cases ha : σ.predecessorAddr = ""
      · simp [caseProposal, hkey, hp, ha, ringState]
      · by_cases hd : env.dial σ.predecessorAddr = true <;>
          simp [caseProposal, sendMessage, Run.exit, Run.update, hrun, hkey, hp, ha, hd,
            ringState]

set_option maxRecDepth 100000 in
/-- C13 at two nodes.  The node `":6661"` just started has no predecessor and
answers the proposal of `":6665"` with an ack naming itself.  The node
`":6663"` of the two-node ring has the predecessor address `":6661"` and a
predecessor identifier other than `-1`: it passes the proposal of `":6665"`
on to `":6661"`. -/
theorem proposal_ack_or_forward_witness :
    (setAsUnit freshNode.predecessor freshNode.predecessorAddr ∧
      (startUpSystem testEnv ":6661" freshNode proposalOfFive).sent =
        [⟨":6665", ⟨"_resProposal", ":6661", ":6665", "successor", "1"⟩⟩]) ∧
    (setAsUnit nodeThreeOfTwo.predecessor nodeThreeOfTwo.predecessorAddr ∧
      (startUpSystem testEnv ":6663" nodeThreeOfTwo
          (marshal ⟨"_proposal", ":6665", ":6663", "successor", "5"⟩)).sent =
        [⟨":6661", ⟨"_proposal", ":6665", ":6663", "successor", "5"⟩⟩]) :=
  ⟨⟨by decide!,
    (proposal_ack_or_forward testEnv ":6661" freshNode proposalOfFive (by decide!) (by decide!)
      (by decide!) (by decide!)).1 (by decide!) (by decide!)⟩,
   ⟨by decide!,
    (proposal_ack_or_forward testEnv ":6663" nodeThreeOfTwo
      (marshal ⟨"_proposal", ":6665", ":6663", "successor", "5"⟩) (by decide!) (by decide!)
      (by decide!) (by decide!)).2.1 (by decide!) (by decide!)⟩⟩

/-! ## C14 -/

/-- C14: a running proposer `P` with no successor and a running candidate `C`
with no predecessor, whose addresses can be dialled and whose identifiers are
non-negative `int64` values.  `C` answers the proposal of `P` with a
proposal-ack of role `"successor"`; `P`, handling it, takes `C` as successor
(identifier and address) and sends `C` a proposal-ack of role
`"predecessor"`; `C`, handling that, takes `P` as predecessor (identifier and
address).  Any node that already has a successor, handling a proposal-ack of
role `"successor"`, sends nothing and keeps its ring state; this holds for
`P` after the adoption. -/
theorem two_way_adoption (env : Env) (addrP addrC dest : String) (P C : Node)
    (hP : P.status = .running) (hC : C.status = .running)
    (hPs : P.successor = -1) (hCp : C.predecessor = -1)
    (hdP : env.dial P.myAddr = true) (hdC : env.dial C.myAddr = true)
    (hidP : 0 ≤ P.identifier ∧ P.identifier < 2 ^ 63)
    (hidC : 0 ≤ C.identifier ∧ C.identifier < 2 ^ 63) :
    (startUpSystem env addrC C
        (marshal ⟨"_proposal", P.myAddr, dest, "successor", formatInt P.identifier⟩)).sent =
      [⟨P.myAddr, ⟨"_resProposal", C.myAddr, P.myAddr, "successor", formatInt C.identifier⟩⟩] ∧
    (startUpSystem env addrP P
        (marshal ⟨"_resProposal", C.myAddr, P.myAddr, "successor",
          formatInt C.identifier⟩)).node.successor = C.identifier ∧
    (startUpSystem env addrP P
        (marshal ⟨"_resProposal", C.myAddr, P.myAddr, "successor",
          formatInt C.identifier⟩)).node.successorAddr = C.myAddr ∧
    (startUpSystem env addrP P
        (marshal ⟨"_resProposal", C.myAddr, P.myAddr, "successor",
          formatInt C.identifier⟩)).sent =
      [⟨C.myAddr, ⟨"_resProposal", P.myAddr, C.myAddr, "predecessor", formatInt P.identifier⟩⟩] ∧
    (startUpSystem env addrC C
        (marshal ⟨"_resProposal", P.myAddr, C.myAddr, "predecessor",
          formatInt P.identifier⟩)).node.predecessor = P.identifier ∧
    (startUpSystem env addrC C
        (marshal ⟨"_resProposal", P.myAddr, C.myAddr, "predecessor",
          formatInt P.identifier⟩)).node.predecessorAddr = P.myAddr ∧
    (∀ (nodeAddr : String) (σ : Node) (d : Datagram), σ.status = .running →
      (unmarshal d σ.msg).Cmd = "_resProposal" → (unmarshal d σ.msg).Key = "successor" →
      σ.successor ≠ -1 →
        (startUpSystem env nodeAddr σ d).sent = [] ∧
        ringState (startUpSystem env nodeAddr σ d).node = ringState σ ∧
        (startUpSystem env nodeAddr σ d).node.status = .running) ∧
    (startUpSystem env addrP P
        (marshal ⟨"_resProposal", C.myAddr, P.myAddr, "successor",
          formatInt C.identifier⟩)).node.successor ≠ -1 := by
  have hrtP := parseInt_formatInt P.identifier (by omega) hidP.2
  have hrtC := parseInt_formatInt C.identifier (by omega) hidC.2
  have hsuccP : (startUpSystem env addrP P
        (marshal ⟨"_resProposal", C.myAddr, P.myAddr, "successor",
          formatInt C.identifier⟩)).node.successor = C.identifier := by
    simp [startUpSystem, hP, marshal, unmarshal, handle, caseResProposal, sendMessage,
      Run.update, hPs, hdC, hrtC]
  refine ⟨?_, hsuccP, ?_, ?_, ?_, ?_, ?_, ?_⟩
  · simp [startUpSystem, hC, marshal, unmarshal, handle, caseProposal, sendMessage, hCp, hdP]
  · simp [startUpSystem, hP, marshal, unmarshal, handle, caseResProposal, sendMessage,
      Run.update, hPs, hdC]
  · simp [startUpSystem, hP, marshal, unmarshal, handle, caseResProposal, sendMessage,
      Run.update, hPs, hdC]
  · simp [startUpSystem, hC, marshal, unmarshal, handle, caseResProposal, sendMessage,
      Run.update, hCp, hdP, hrtP]
  · simp [startUpSystem, hC, marshal, unmarshal, handle, caseResProposal, sendMessage,
      Run.update, hCp, hdP]
  · intro nodeAddr σ d hrun hcmd hkey hs
    generalize hmsg : unmarshal d σ.msg = msg at hcmd hkey ⊢
    simp only [startUpSystem, hrun, hmsg, if_true, handle_resProposal _ _ _ _ _ hcmd]
    simp [caseResProposal, hkey, hs, ringState, hrun]
  · rw [hsuccP]; omega

/-- C14 at the fresh nodes `":6661"` (proposer, identifier 1) and `":6663"`
(candidate, identifier 3). -/
theorem two_way_adoption_witness :
    (startUpSystem testEnv ":6661" freshNode
        (marshal ⟨"_resProposal", ":6663", ":6661", "successor", "3"⟩)).node.successor = 3 ∧
    (startUpSystem testEnv ":6663" freshNodeThree
        (marshal ⟨"_resProposal", ":6661", ":6663", "predecessor", "1"⟩)).node.predecessor = 1 :=
  have h := two_way_adoption testEnv ":6661" ":6663" ":6663" freshNode freshNodeThree
    (by decide) (by decide) (by decide) (by decide) (by decide) (by decide) (by decide)
    (by decide)
  ⟨h.2.1, h.2.2.2.2.1⟩

/-! ## C15 -/

theorem foldl_proposal_sent (env : Env) (position : String) (l : List (Int × String)) :
    ∀ r : Run, r.node.status = .running → (∀ e ∈ l, env.dial e.2 = true) →
      l.foldl (fun acc e => sendMessage env acc e.2
          ⟨"_proposal", acc.node.myAddr, e.2, position, formatInt acc.node.identifier⟩) r =
        ⟨r.node, r.sent ++ l.map (fun e =>
          ⟨e.2, ⟨"_proposal", r.node.myAddr, e.2, position, formatInt r.node.identifier⟩⟩)⟩ := by
  induction l with
  | nil => intro r _ _; simp
  | cons e l ih =>
    intro r hrun hdial
    have he : env.dial e.2 = true := hdial e (List.mem_cons_self _ _)
    have hstep : sendMessage env r e.2
          ⟨"_proposal", r.node.myAddr, e.2, position, formatInt r.node.identifier⟩ =
        ⟨r.node, r.sent ++ [⟨e.2,
          ⟨"_proposal", r.node.myAddr, e.2, position, formatInt r.node.identifier⟩⟩]⟩ := by
      simp [sendMessage, hrun, he]
    rw [List.foldl_cons, hstep]
    refine (ih (Run.mk r.node (r.sent ++ [Packet.mk e.2
      (CommandMessage.mk "_proposal" r.node.myAddr e.2 position
        (formatInt r.node.identifier))])) hrun
      (fun x hx => hdial x (List.mem_cons_of_mem _ hx))).trans ?_
    simp

theorem sendMessage_node (env : Env) (r : Run) (addr : String) (msg : CommandMessage) :
    ∃ st, (sendMessage env r addr msg).node = { r.node with status := st } := by
  unfold sendMessage Run.exit Run.update
  split_ifs
  · exact ⟨r.node.status, rfl⟩
  · exact ⟨.exited, rfl⟩
  · exact ⟨r.node.status, rfl⟩

theorem foldl_sendMessage_node (env : Env) {α : Type} (dst : Run → α → String)
    (mk : Run → α → CommandMessage) (l : List α) :
    ∀ r : Run, ∃ st,
      (l.foldl (fun acc x => sendMessage env acc (dst acc x) (mk acc x)) r).node =
        { r.node with status := st } := by
  induction l with
  | nil => intro r; exact ⟨r.node.status, rfl⟩
  | cons x l ih =>
    intro r
    obtain ⟨st1, h1⟩ := sendMessage_node env r (dst r x) (mk r x)
    obtain ⟨st2, h2⟩ := ih (sendMessage env r (dst r x) (mk r x))
    refine ⟨st2, ?_⟩
    rw [List.foldl_cons, h2, h1]

theorem stabilizeNode_node (env : Env) (r : Run) (position : String) :
    ∃ st, (stabilizeNode env r position).node = { r.node with status := st } := by
  unfold stabilizeNode
  obtain ⟨st1, h1⟩ := foldl_sendMessage_node env (fun _ e => e.2)
    (fun acc e => ⟨"_proposal", acc.node.myAddr, e.2, position, formatInt acc.node.identifier⟩)
    r.node.ftab r
  obtain ⟨st2, h2⟩ := sendMessage_node env
    (r.node.ftab.foldl (fun acc e => sendMessage env acc e.2
      ⟨"_proposal", acc.node.myAddr, e.2, position, formatInt acc.node.identifier⟩) r)
    (r.node.ftab.foldl (fun acc e => sendMessage env acc e.2
      ⟨"_proposal", acc.node.myAddr, e.2, position, formatInt acc.node.identifier⟩)
        r).node.predecessorAddr
    ⟨"_proposal",
      (r.node.ftab.foldl (fun acc e => sendMessage env acc e.2
        ⟨"_proposal", acc.node.myAddr, e.2, position, formatInt acc.node.identifier⟩)
          r).node.myAddr,
      (r.node.ftab.foldl (fun acc e => sendMessage env acc e.2
        ⟨"_proposal", acc.node.myAddr, e.2, position, formatInt acc.node.identifier⟩)
          r).node.predecessorAddr, position,
      formatInt (r.node.ftab.foldl (fun acc e => sendMessage env acc e.2
        ⟨"_proposal", acc.node.myAddr, e.2, position, formatInt acc.node.identifier⟩)
          r).node.identifier⟩
  refine ⟨st2, ?_⟩
  simp only at h2
  rw [h2, h1]

/-- C15: the timeout branch of the successor timer on a running node.  The
successor identifier becomes `-1` and the successor address empty; predecessor,
routing cache and store stay as they were.  When every address of the
routing cache and the predecessor address can be dialled, the node then sends
one proposal tagged `"successor"`, carrying its own identifier, per entry of
the routing cache (in the order the cache is visited) and a last one to the
predecessor address, and goes on running. -/
theorem successorTimeout_clears_and_proposes (env : Env) (σ : Node)
    (hrun : σ.status = .running) :
    (successorTimeout env σ).node.successor = -1 ∧
    (successorTimeout env σ).node.successorAddr = "" ∧
    (successorTimeout env σ).node.predecessor = σ.predecessor ∧
    (successorTimeout env σ).node.predecessorAddr = σ.predecessorAddr ∧
    (successorTimeout env σ).node.ftab = σ.ftab ∧
    (successorTimeout env σ).node.store = σ.store ∧
    ((∀ e ∈ σ.ftab, env.dial e.2 = true) → env.dial σ.predecessorAddr = true →
      (successorTimeout env σ).sent =
        σ.ftab.map (fun e =>
          ⟨e.2, ⟨"_proposal", σ.myAddr, e.2, "successor", formatInt σ.identifier⟩⟩) ++
        [⟨σ.predecessorAddr,
          ⟨"_proposal", σ.myAddr, σ.predecessorAddr, "successor", formatInt σ.identifier⟩⟩] ∧
      (successorTimeout env σ).node.status = .running) := by
  have hupd : (Run.mk σ []).update
      (fun n => { n with successor := -1, successorAddr := "" }) =
      ⟨{ σ with successor := -1, successorAddr := "" }, []⟩ := by
    simp [Run.update, hrun]
  obtain ⟨st, hst⟩ := stabilizeNode_node env
    ⟨{ σ with successor := -1, successorAddr := "" }, []⟩ "successor"
  have hnode : (successorTimeout env σ).node =
      { { σ with successor := -1, successorAddr := "" } with status := st } := by
    unfold successorTimeout
    simp only [hupd]
    exact hst
  refine ⟨by rw [hnode], by rw [hnode], by rw [hnode], by rw [hnode], by rw [hnode],
    by rw [hnode], ?_⟩
  intro hft hp
  unfold successorTimeout
  simp only [hupd, stabilizeNode]
  rw [foldl_proposal_sent env "successor" σ.ftab
    ⟨{ σ with successor := -1, successorAddr := "" }, []⟩ hrun hft]
  simp [sendMessage, hrun, hp]

/-- C15 at the node `":6663"` of the two-node ring: three cache entries and
the predecessor, all at `":6661"`. -/
theorem successorTimeout_clears_and_proposes_witness :
    (successorTimeout testEnv nodeThreeOfTwo).node.successor = -1 ∧
    (successorTimeout testEnv nodeThreeOfTwo).node.successorAddr = "" ∧
    (successorTimeout testEnv nodeThreeOfTwo).sent =
      [⟨":6661", ⟨"_proposal", ":6663", ":6661", "successor", "3"⟩⟩,
        ⟨":6661", ⟨"_proposal", ":6663", ":6661", "successor", "3"⟩⟩,
        ⟨":6661", ⟨"_proposal", ":6663", ":6661", "successor", "3"⟩⟩,
        ⟨":6661", ⟨"_proposal", ":6663", ":6661", "successor", "3"⟩⟩] :=
  have h := successorTimeout_clears_and_proposes testEnv nodeThreeOfTwo (by decide!)
  ⟨h.1, h.2.1, (h.2.2.2.2.2.2 (by decide!) (by decide!)).1.trans (by decide!)⟩

/-! ## C16 -/

theorem sendMessage_identifier (env : Env) (r : Run) (addr : String) (msg : CommandMessage) :
    (sendMessage env r addr msg).node.identifier = r.node.identifier := by
  obtain ⟨st, h⟩ := sendMessage_node env r addr msg
  rw [h]

theorem update_identifier (r : Run) (f : Node → Node)
    (h : ∀ n, (f n).identifier = n.identifier) :
    (r.update f).node.identifier = r.node.identifier := by
  unfold Run.update
  split_ifs
  · exact h r.node
  · rfl

theorem initFingerTable_identifier (env : Env) (r : Run) (nodeAddr : String) :
    (initFingerTable env r nodeAddr).node.identifier = r.node.identifier := by
  unfold initFingerTable getNodeInfo
  obtain ⟨st, h⟩ := foldl_sendMessage_node env (fun acc _ => acc.node.successorAddr)
    (fun acc i => ⟨"_getInfo", nodeAddr, "", "",
      formatInt (fingerKey (getIdentifier env r.node.m nodeAddr) r.node.m i)⟩)
    (List.range r.node.m) r
  simp only at h ⊢
  rw [h]

theorem stabilizeNode_identifier (env : Env) (r : Run) (position : String) :
    (stabilizeNode env r position).node.identifier = r.node.identifier := by
  obtain ⟨st, h⟩ := stabilizeNode_node env r position
  rw [h]

theorem caseProposal_identifier (env : Env) (r : Run) (msg : CommandMessage) :
    (caseProposal env r msg).node.identifier = r.node.identifier := by
  unfold caseProposal
  split_ifs <;> simp [sendMessage_identifier]

theorem caseResProposal_identifier (env : Env) (r : Run) (msg : CommandMessage) :
    (caseResProposal env r msg).node.identifier = r.node.identifier := by
  unfold caseResProposal
  split_ifs <;> simp [sendMessage_identifier, update_identifier]

theorem caseHeartbeat_identifier (r : Run) (msg : CommandMessage) :
    (caseHeartbeat r msg).node.identifier = r.node.identifier := by
  unfold caseHeartbeat chanSend
  simp only
  split_ifs <;> simp [update_identifier]

theorem caseAlive_identifier (env : Env) (r : Run) (msg : CommandMessage) :
    (caseAlive env r msg).node.identifier = r.node.identifier := by
  unfold caseAlive sendAliveMessage
  split_ifs <;> simp [sendMessage_identifier]

theorem provideInfo_identifier (env : Env) (r : Run) (msg : CommandMessage) (nodeAddr : String) :
    (provideInfo env r msg nodeAddr).node.identifier = r.node.identifier := by
  unfold provideInfo sendToNextBestNode Run.exit
  split
  · simp [update_identifier]
  · split_ifs
    · simp [sendMessage_identifier]
    · simp [sendMessage_identifier]
    · split <;> simp [sendMessage_identifier]

theorem caseGetVal_identifier (env : Env) (r : Run) (msg : CommandMessage) (k : Int)
    (nodeAddr : String) :
    (caseGetVal env r msg k nodeAddr).node.identifier = r.node.identifier := by
  unfold caseGetVal sendToNextBestNode
  split <;> simp [sendMessage_identifier]

theorem caseSetVal_identifier (env : Env) (r : Run) (msg : CommandMessage) (k : Int)
    (nodeAddr : String) :
    (caseSetVal env r msg k nodeAddr).node.identifier = r.node.identifier := by
  unfold caseSetVal sendToNextBestNode
  split <;> simp [sendMessage_identifier, update_identifier]

theorem caseLocPred_identifier (env : Env) (r : Run) (msg : CommandMessage) (k : Int)
    (nodeAddr : String) :
    (caseLocPred env r msg k nodeAddr).node.identifier = r.node.identifier := by
  unfold caseLocPred sendPredInfo sendToNextBestNode
  split_ifs <;> simp [sendMessage_identifier]

theorem caseResDisc_identifier (env : Env) (r : Run) (msg : CommandMessage) :
    (caseResDisc env r msg).node.identifier = r.node.identifier := by
  unfold caseResDisc
  simp only
  split_ifs <;> simp [initFingerTable_identifier, update_identifier]

theorem caseDiscover_identifier (env : Env) (r : Run) (msg : CommandMessage)
    (nodeAddr : String) :
    (caseDiscover env r msg nodeAddr).node.identifier = r.node.identifier := by
  unfold caseDiscover sendPredInfo sendToNextBestNode
  simp only
  split_ifs <;> simp [sendMessage_identifier, update_identifier]

theorem caseResInfo_identifier (r : Run) (msg : CommandMessage) (k : Int) :
    (caseResInfo r msg k).node.identifier = r.node.identifier :=
  update_identifier _ _ (fun _ => rfl)

theorem caseResLocPred_identifier (r : Run) (msg : CommandMessage) :
    (caseResLocPred r msg).node.identifier = r.node.identifier :=
  update_identifier _ _ (fun _ => rfl)

theorem handle_identifier (env : Env) (nodeAddr : String) (r : Run) (msg : CommandMessage)
    (k : Int) : (handle env nodeAddr r msg k).node.identifier = r.node.identifier := by
  unfold handle
  simp only [apply_ite Run.node, apply_ite Node.identifier, caseProposal_identifier,
    caseResProposal_identifier, caseHeartbeat_identifier, caseAlive_identifier,
    provideInfo_identifier, caseGetVal_identifier, caseResInfo_identifier,
    caseSetVal_identifier, caseLocPred_identifier, caseResLocPred_identifier,
    caseResDisc_identifier, caseDiscover_identifier, ite_self]

theorem fire_identifier (env : Env) (σ : Node) (ev : Event) :
    (fire env σ ev).node.identifier = σ.identifier := by
  cases ev with
  | datagram d =>
    unfold fire startUpSystem
    split_ifs
    · simp only [handle_identifier]
    · rfl
  | successorTimeout =>
    unfold fire successorTimeout
    simp [stabilizeNode_identifier, update_identifier]
  | predecessorTimeout =>
    unfold fire predecessorTimeout
    simp [update_identifier]

theorem runEvents_identifier (env : Env) (evs : List Event) :
    ∀ σ : Node, (runEvents env σ evs).identifier = σ.identifier := by
  induction evs with
  | nil => intro σ; rfl
  | cons ev rest ih =>
    intro σ
    rw [runEvents, ih, fire_identifier]

/-- C16: the identifier of a node is computed by `main` from its address
(alone or joining through a starter node), and it is the same after any
sequence of steps: datagrams of any content handled by the receive loop, with
the join steps they trigger, and timeouts of the two liveness timers. -/
theorem identifier_never_changes (env : Env) (myAddr startAddr : String) (evs : List Event) :
    (main env myAddr startAddr).node.identifier = getIdentifier env 3 myAddr ∧
    (runEvents env (main env myAddr startAddr).node evs).identifier =
      getIdentifier env 3 myAddr := by
  have h0 : (main env myAddr startAddr).node.identifier = getIdentifier env 3 myAddr := by
    unfold main connectToSystem locateSuccessor locatePredecessor
    split_ifs
    · rfl
    · simp [update_identifier, sendMessage_identifier, mainInit]
  exact ⟨h0, by rw [runEvents_identifier, h0]⟩

/-! ## C17 -/

/-- C17: a running node and a datagram whose envelope, once decoded, is a
proposal-ack with a role other than `"successor"` and `"predecessor"`, or has
a tag that is none of the twelve commands of the switch.  Handling it sends
nothing, leaves the ring state as it was, and the node goes on running. -/
theorem unmatched_envelope_discarded (env : Env) (nodeAddr : String) (σ : Node) (d : Datagram)
    (hrun : σ.status = .running)
    (hun : ((unmarshal d σ.msg).Cmd = "_resProposal" ∧
        (unmarshal d σ.msg).Key ≠ "successor" ∧ (unmarshal d σ.msg).Key ≠ "predecessor") ∨
      (unmarshal d σ.msg).Cmd ∉ ["_proposal", "_resProposal", "_heartbeat", "_alive?",
        "_getInfo", "_getVal", "_resInfo", "_setVal", "_locPred", "_resLocPred", "_resDisc",
        "_discover"]) :
    (startUpSystem env nodeAddr σ d).sent = [] ∧
    ringState (startUpSystem env nodeAddr σ d).node = ringState σ ∧
    (startUpSystem env nodeAddr σ d).node.status = .running := by
  generalize hmsg : unmarshal d σ.msg = msg at hun ⊢
  simp only [startUpSystem, hrun, hmsg, if_true]
  rcases hun with ⟨hcmd, hk1, hk2⟩ | hcmd
  · rw [handle_resProposal _ _ _ _ _ hcmd]
    simp [caseResProposal, hk1, hk2, ringState, hrun]
  · simp only [List.mem_cons, List.mem_singleton, not_or, List.mem_nil_iff, or_false] at hcmd
    obtain ⟨h1, h2, h3, h4, h5, h6, h7, h8, h9, h10, h11, h12⟩ := hcmd
    simp [handle, h1, h2, h3, h4, h5, h6, h7, h8, h9, h10, h11, h12, ringState, hrun]

/-- C17 at the node `":6663"` of the two-node ring, for a proposal-ack of
role `"owner"`. -/
theorem unmatched_envelope_discarded_witness :
    (startUpSystem testEnv ":6663" nodeThreeOfTwo
        (marshal ⟨"_resProposal", ":6665", ":6663", "owner", "5"⟩)).sent = [] ∧
    ringState (startUpSystem testEnv ":6663" nodeThreeOfTwo
        (marshal ⟨"_resProposal", ":6665", ":6663", "owner", "5"⟩)).node =
      ringState nodeThreeOfTwo ∧
    (startUpSystem testEnv ":6663" nodeThreeOfTwo
        (marshal ⟨"_resProposal", ":6665", ":6663", "owner", "5"⟩)).node.status = .running :=
  unmatched_envelope_discarded testEnv ":6663" nodeThreeOfTwo
    (marshal ⟨"_resProposal", ":6665", ":6663", "owner", "5"⟩) (by decide!) (by decide!)

/-! ## C19 -/

/-- Whatever node handles a predecessor-ack written by `sendPredInfo`, its
predecessor identifier becomes `0`, the value `ParseInt` gives for the key
`"predecessor"`, and its predecessor address the address named. -/
theorem resLocPred_of_sendPredInfo (env : Env) (nodeAddr sender src a : String) (σ : Node)
    (hrun : σ.status = .running) :
    (startUpSystem env nodeAddr σ
        (marshal ⟨"_resLocPred", sender, src, "predecessor", a⟩)).node.predecessor = 0 ∧
    (startUpSystem env nodeAddr σ
        (marshal ⟨"_resLocPred", sender, src, "predecessor", a⟩)).node.predecessorAddr = a := by
  simp [startUpSystem, hrun, marshal, unmarshal, handle, caseResLocPred, Run.update,
    parseInt_lits]


/-- C19 (the code departs from it): `sendPredInfo`, called by `":6661"`
(identifier 1) for the requester `":6663"` and naming `":6661"`, sends a
predecessor-ack whose key is the word `"predecessor"`.  The fresh node
`":6663"` handling it takes `":6661"` as predecessor address, but its
predecessor identifier becomes `0`, not 1; successor fields and routing
cache are as before. -/
theorem resLocPred_predecessor_identifier_zero :
    getIdentifier testEnv 3 ":6661" = 1 ∧
    (sendPredInfo testEnv ⟨freshNode, []⟩ ":6663" ":6661").sent =
      [⟨":6663", ⟨"_resLocPred", ":6661", ":6663", "predecessor", ":6661"⟩⟩] ∧
    ringState (startUpSystem testEnv ":6663" freshNodeThree
        (marshal ⟨"_resLocPred", ":6661", ":6663", "predecessor", ":6661"⟩)).node =
      ⟨-1, "", 0, ":6661", [], []⟩ := by
  decide!

/-! ## C20 -/

theorem handle_getInfo (env : Env) (nodeAddr : String) (r : Run) (msg : CommandMessage) (k : Int)
    (h : msg.Cmd = "_getInfo") :
    handle env nodeAddr r msg k = provideInfo env r msg nodeAddr := by
  simp [handle, h]

/-- C20, as stated, fails: the node `":6663"` (identifier 3) of the two-node
ring has the successor `":6661"` (identifier 1).  The target 1 lies in the
arc from just after 3 up to and including 1, yet the node does not answer a
get-info request for it: it passes the request on to `":6661"`. -/
theorem getInfo_successor_identifier_forwarded :
    (nodeThreeOfTwo.identifier = 3 ∧ nodeThreeOfTwo.successor = 1 ∧
      nodeThreeOfTwo.successorAddr = ":6661") ∧
    ownedBySuccessor (2 ^ 3) 3 1 1 ∧
    (startUpSystem testEnv ":6663" nodeThreeOfTwo
        (marshal ⟨"_getInfo", ":7000", "", "", "1"⟩)).sent =
      [⟨":6661", ⟨"_getInfo", ":7000", "", "", "1"⟩⟩] ∧
    ¬ ∃ p ∈ (startUpSystem testEnv ":6663" nodeThreeOfTwo
        (marshal ⟨"_getInfo", ":7000", "", "", "1"⟩)).sent,
      p.addr = ":7000" ∧ p.msg.Cmd = "_resInfo" := by
  decide!

/-- C20, amended: a running node handling a get-info request whose value
reads as the target `t`, from a requester that can be dialled.  If `t` lies
strictly between the node and its successor (`betweenIdens`), the node sends
exactly one datagram, an info-ack to the requester whose key is the target as
written in the request and whose value is the successor address.  If `t` is
the identifier of the node, the info-ack carries the address the node listens
on.  The ring state is the same afterwards. -/
theorem getInfo_answer_strictly_between (env : Env) (nodeAddr : String) (σ : Node)
    (d : Datagram) (t : Int)
    (hrun : σ.status = .running)
    (hcmd : (unmarshal d σ.msg).Cmd = "_getInfo")
    (hval : parseInt (unmarshal d σ.msg).Val = (t, true))
    (hdial : env.dial (unmarshal d σ.msg).SourceAddr = true) :
    (betweenIdens σ.successor σ.identifier t = true →
      (startUpSystem env nodeAddr σ d).sent =
        [⟨(unmarshal d σ.msg).SourceAddr,
          ⟨"_resInfo", nodeAddr, (unmarshal d σ.msg).SourceAddr, (unmarshal d σ.msg).Val,
            σ.successorAddr⟩⟩]) ∧
    (t = σ.identifier →
      (startUpSystem env nodeAddr σ d).sent =
        [⟨(unmarshal d σ.msg).SourceAddr,
          ⟨"_resInfo", nodeAddr, (unmarshal d σ.msg).SourceAddr, (unmarshal d σ.msg).Val,
            nodeAddr⟩⟩]) ∧
    ringState (startUpSystem env nodeAddr σ d).node = ringState σ := by
  generalize hmsg : unmarshal d σ.msg = msg at hcmd hval hdial ⊢
  simp only [startUpSystem, hrun, hmsg, if_true, handle_getInfo _ _ _ _ _ hcmd]
  refine ⟨?_, ?_, ?_⟩
  · intro hb
    simp [provideInfo, hval, hb, sendMessage, hrun, hdial]
  · intro ht
    have hnb : betweenIdens σ.successor σ.identifier σ.identifier = false := by
      unfold betweenIdens
      split_ifs <;> first | rfl | omega
    subst ht
    simp [provideInfo, hval, hnb, sendMessage, hrun, hdial]
  · unfold provideInfo
    simp only [hval]
    split_ifs
    · simp [sendMessage, hrun, hdial, ringState]
    · simp [sendMessage, hrun, hdial, ringState]
    · split
      · simp [sendMessage, hrun, hdial, ringState]
      · by_cases hd : env.dial (closestNode σ.ftab t) = true <;>
          simp [sendToNextBestNode, sendMessage, Run.exit, Run.update, hrun, hd, ringState]

/-- C20, amended, at the node `":6663"` of the two-node ring (identifier 3,
successor `":6661"` with identifier 1): the target 5 lies strictly between. -/
theorem getInfo_answer_strictly_between_witness :
    (startUpSystem testEnv ":6663" nodeThreeOfTwo
        (marshal ⟨"_getInfo", ":7000", "", "", "5"⟩)).sent =
      [⟨":7000", ⟨"_resInfo", ":6663", ":7000", "5", ":6661"⟩⟩] :=
  (getInfo_answer_strictly_between testEnv ":6663" nodeThreeOfTwo
    (marshal ⟨"_getInfo", ":7000", "", "", "5"⟩) 5 (by decide!) (by decide!) (by decide!)
    (by decide!)).1 (by decide!)

/-! ## The loop of `convByteArrayToSeg` -/

theorem vidmapSet_new_key (vm : List (Nat × VidSegment)) (k : Nat) (seg : VidSegment)
    (hk : k ∉ vm.map Prod.fst) : vidmapSet vm k seg = vm ++ [(k, seg)] := by
  induction vm with
  | nil => rfl
  | cons e vm ih =>
    obtain ⟨k0, v0⟩ := e
    simp only [List.map_cons, List.mem_cons, not_or] at hk
    have hne : ¬ k0 = k := fun h => hk.1 h.symm
    simp [vidmapSet, hne, ih hk.2]

theorem segInv_init : SegInv ⟨[], [], [], 1⟩ [] := by
  simp [SegInv]

theorem segInv_step (s : SegLoop) (p : List Nat) (x : Nat) (h : SegInv s p) :
    SegInv (segStep s (p.length, x)) (p ++ [x]) := by
  obtain ⟨hc, hl, hcat, hsegs, hkeys, hall⟩ := h
  unfold segStep
  simp only [bytecount]
  by_cases hfull : s.counter = 2048
  · have hmod : p.length % 2048 = 2047 := by omega
    have hdiv : (p.length + 1) / 2048 = p.length / 2048 + 1 := by omega
    have hmod1 : (p.length + 1) % 2048 = 0 := by omega
    have hnew : p.length / 2048 + 1 ∉ s.vidmap.map Prod.fst := by
      rw [hkeys]
      simp
    rw [if_pos hfull, vidmapSet_new_key _ _ _ hnew]
    refine ⟨?_, ?_, ?_, ?_, ?_, ?_⟩
    · simp [hmod1]
    · simp [hmod1]
    · simp only [List.map_append, List.map_cons, List.map_nil, List.flatten_append,
        List.flatten_cons, List.flatten_nil, List.append_nil]
      rw [← hcat]
      simp
    · simp only [List.length_append, List.length_singleton, hdiv, List.range_succ,
        List.map_append, List.map_cons, List.map_nil]
      rw [hsegs]
    · simp only [List.length_append, List.length_singleton, hdiv, List.range_succ,
        List.map_append, List.map_cons, List.map_nil]
      rw [hkeys]
    · intro e he
      rw [List.mem_append] at he
      rcases he with he | he
      · exact hall e he
      · simp only [List.mem_singleton] at he
        subst he
        simp only [List.length_append, List.length_singleton]
        omega
  · have hmod : p.length % 2048 + 1 < 2048 := by
      have := Nat.mod_lt p.length (show 0 < 2048 by decide)
      omega
    have hdiv : (p.length + 1) / 2048 = p.length / 2048 := by omega
    have hmod1 : (p.length + 1) % 2048 = p.length % 2048 + 1 := by omega
    rw [if_neg hfull]
    refine ⟨?_, ?_, ?_, ?_, ?_, hall⟩
    · simp [hmod1, hc]
    · simp [hmod1, hl]
    · simp only
      rw [← List.append_assoc, hcat]
    · simp only [List.length_append, List.length_singleton, hdiv]
      exact hsegs
    · simp only [List.length_append, List.length_singleton, hdiv]
      exact hkeys

theorem segInv_foldl (r : List Nat) :
    ∀ (p : List Nat) (s : SegLoop), SegInv s p →
      SegInv ((List.enumFrom p.length r).foldl segStep s) (p ++ r) := by
  induction r with
  | nil => intro p s h; simpa using h
  | cons x r ih =>
    intro p s h
    have h1 := ih (p ++ [x]) (segStep s (p.length, x)) (segInv_step s p x h)
    simpa [List.enumFrom] using h1

theorem segInv_final (bytes : List Nat) :
    SegInv (bytes.enum.foldl segStep ⟨[], [], [], 1⟩) bytes := by
  have h := segInv_foldl bytes [] ⟨[], [], [], 1⟩ segInv_init
  simpa [List.enum] using h

/-- Every segment `convByteArrayToSeg` stores carries the `Id` 2048, under
the keys 1, 2, ... in turn. -/
theorem convByteArrayToSeg_ids (bytes : List Nat) :
    (convByteArrayToSeg bytes).2.map (fun e => (e.1, e.2.Id)) =
      (List.range (bytes.length / 2048)).map (fun k => (k + 1, 2048)) := by
  obtain ⟨_, _, _, _, hkeys, hall⟩ := segInv_final bytes
  have h1 : (convByteArrayToSeg bytes).2.map (fun e => (e.1, e.2.Id)) =
      ((convByteArrayToSeg bytes).2.map Prod.fst).map (fun k => (k, 2048)) := by
    rw [List.map_map]
    apply List.map_congr_left
    intro e he
    simp [(hall e he).2]
  rw [h1]
  simp only [convByteArrayToSeg]
  rw [hkeys, List.map_map]
  rfl

/-! ## C21 -/

/-- C21 (the code departs from it): for an array of 4096 bytes the two
segments stored under the keys 1 and 2 both carry the `Id` 2048, the value of
`index % bytecount + 1` at the last byte of a segment, and not their key. -/
theorem segment_id_is_not_its_key :
    (convByteArrayToSeg (List.replicate 4096 0)).2.map (fun e => (e.1, e.2.Id)) =
      [(1, 2048), (2, 2048)] := by
  rw [convByteArrayToSeg_ids, List.length_replicate]
  decide

/-! ## C22 -/

/-- C22: for a byte array of length `n`, `convByteArrayToSeg` (segment size
2048) returns the available segments `1, 2, ..., n / 2048` in this order and
a map whose keys are these numbers, in this order; every body has 2048 bytes;
the bodies joined in key order are the first `2048 * (n / 2048)` bytes of the
array; and the number of segments is the `SegNums` recorded for the video,
`n / 2048`. -/
theorem convByteArrayToSeg_segments (name : String) (bytes : List Nat) :
    (convByteArrayToSeg bytes).1 = (List.range (bytes.length / 2048)).map (fun k => k + 1) ∧
    (convByteArrayToSeg bytes).2.map Prod.fst =
      (List.range (bytes.length / 2048)).map (fun k => k + 1) ∧
    (∀ e ∈ (convByteArrayToSeg bytes).2, e.2.Body.length = 2048) ∧
    ((convByteArrayToSeg bytes).2.map (fun e => e.2.Body)).flatten =
      bytes.take (2048 * (bytes.length / 2048)) ∧
    (videoOfFile name bytes).SegNums = bytes.length / 2048 ∧
    (videoOfFile name bytes).SegsAvail.length = (videoOfFile name bytes).SegNums ∧
    (videoOfFile name bytes).Segments.length = (videoOfFile name bytes).SegNums := by
  obtain ⟨_, hl, hcat, hsegs, hkeys, hall⟩ := segInv_final bytes
  have hfl : ((bytes.enum.foldl segStep ⟨[], [], [], 1⟩).vidmap.map
      (fun e => e.2.Body)).flatten.length = 2048 * (bytes.length / 2048) := by
    have h := congrArg List.length hcat
    simp only [List.length_append] at h
    omega
  have hvm : (bytes.enum.foldl segStep ⟨[], [], [], 1⟩).vidmap.length =
      bytes.length / 2048 := by
    have h := congrArg List.length hkeys
    simpa using h
  have hsl : (bytes.enum.foldl segStep ⟨[], [], [], 1⟩).segsAvail.length =
      bytes.length / 2048 := by
    rw [hsegs]
    simp
  refine ⟨hsegs, hkeys, fun e he => (hall e he).1, ?_, rfl, hsl, hvm⟩
  show ((bytes.enum.foldl segStep ⟨[], [], [], 1⟩).vidmap.map
      (fun e => e.2.Body)).flatten = _
  rw [← hfl]
  generalize ((bytes.enum.foldl segStep ⟨[], [], [], 1⟩).vidmap.map
      (fun e => e.2.Body)).flatten = F at hcat
  generalize (bytes.enum.foldl segStep ⟨[], [], [], 1⟩).eightBSeg = E at hcat
  subst hcat
  exact (List.take_left' rfl).symm

/-! ## C23 -/

theorem wrapInt64_small (x : Int) (h : -2 ^ 63 ≤ x ∧ x < 2 ^ 63) : wrapInt64 x = x := by
  unfold wrapInt64
  norm_num at h ⊢
  omega

theorem closestNode_foldl (N K : Int) (hN : N ≤ 2 ^ 62) (hK : 0 ≤ K ∧ K < N)
    (l : List (Int × String)) :
    ∀ acc : Int × String, (∀ e ∈ l, 0 ≤ e.1 ∧ e.1 < N) →
      (l.foldl (fun (acc : Int × String) (e : Int × String) =>
            if wrapInt64 (e.1 - K) < acc.1 then (wrapInt64 (e.1 - K), e.2) else acc) acc = acc ∧
          ∀ e ∈ l, acc.1 ≤ e.1 - K) ∨
      ∃ e ∈ l,
        l.foldl (fun (acc : Int × String) (e : Int × String) =>
            if wrapInt64 (e.1 - K) < acc.1 then (wrapInt64 (e.1 - K), e.2) else acc) acc =
          (e.1 - K, e.2) ∧
        e.1 - K < acc.1 ∧ ∀ e' ∈ l, e.1 ≤ e'.1 := by
  induction l with
  | nil => intro acc _; left; simp
  | cons x l ih =>
    intro acc hr
    have hx := hr x (List.mem_cons_self _ _)
    have hl : ∀ e ∈ l, 0 ≤ e.1 ∧ e.1 < N := fun e he => hr e (List.mem_cons_of_mem _ he)
    have hw : wrapInt64 (x.1 - K) = x.1 - K := wrapInt64_small _ (by norm_num at hN ⊢; omega)
    rw [List.foldl_cons, hw]
    by_cases hlt : x.1 - K < acc.1
    · rw [if_pos hlt]
      rcases ih (x.1 - K, x.2) hl with ⟨heq, hall⟩ | ⟨e, he, heq, hlt2, hmin⟩
      · right
        refine ⟨x, List.mem_cons_self _ _, heq, hlt, ?_⟩
        intro e' he'
        rcases List.mem_cons.mp he' with h | h
        · rw [h]
        · have := hall e' h
          simp only at this
          omega
      · right
        simp only at hlt2
        refine ⟨e, List.mem_cons_of_mem _ he, heq, by omega, ?_⟩
        intro e' he'
        rcases List.mem_cons.mp he' with h | h
        · rw [h]; omega
        · exact hmin e' h
    · rw [if_neg hlt]
      rcases ih acc hl with ⟨heq, hall⟩ | ⟨e, he, heq, hlt2, hmin⟩
      · left
        refine ⟨heq, ?_⟩
        intro e' he'
        rcases List.mem_cons.mp he' with h | h
        · rw [h]; omega
        · exact hall e' h
      · right
        refine ⟨e, List.mem_cons_of_mem _ he, heq, hlt2, ?_⟩
        intro e' he'
        rcases List.mem_cons.mp he' with h | h
        · rw [h]; omega
        · exact hmin e' h

theorem closestNode_smallest (N K : Int) (hN : N ≤ 2 ^ 62) (hK : 0 ≤ K ∧ K < N)
    (l : List (Int × String)) (hne : l ≠ []) (hr : ∀ e ∈ l, 0 ≤ e.1 ∧ e.1 < N) :
    ∃ e ∈ l, (∀ e' ∈ l, e.1 ≤ e'.1) ∧ closestNode l K = e.2 := by
  unfold closestNode
  rcases closestNode_foldl N K hN hK l (maxInt64, "") hr with ⟨_, hall⟩ | ⟨e, he, heq, _, hmin⟩
  · exfalso
    cases l with
    | nil => exact hne rfl
    | cons x l =>
      have h1 := hall x (List.mem_cons_self _ _)
      have h2 := hr x (List.mem_cons_self _ _)
      simp only [maxInt64] at h1
      norm_num at hN h1
      omega
  · exact ⟨e, he, hmin, by simp only [heq]⟩

/-- C23: a routing cache that is not empty, with distinct identifiers in
`[0, 2 ^ m)` (`m` at most 62, so that the `int64` subtraction cannot wrap),
and a target in `[0, 2 ^ m)`.  The address `sendToNextBestNode` picks is that
of the entry with the smallest identifier; a running node that can dial it
sends the envelope there and nowhere else; and every other target in
`[0, 2 ^ m)` leads to the same address. -/
theorem sendToNextBestNode_smallest_identifier (env : Env) (r : Run) (t : Int)
    (msg : CommandMessage)
    (hm : r.node.m ≤ 62) (hne : r.node.ftab ≠ [])
    (hnd : (r.node.ftab.map Prod.fst).Nodup)
    (hk : ∀ e ∈ r.node.ftab, 0 ≤ e.1 ∧ e.1 < 2 ^ r.node.m)
    (ht : 0 ≤ t ∧ t < 2 ^ r.node.m) :
    ∃ e ∈ r.node.ftab, (∀ e' ∈ r.node.ftab, e.1 ≤ e'.1) ∧
      closestNode r.node.ftab t = e.2 ∧
      (r.node.status = .running → env.dial e.2 = true →
        (sendToNextBestNode env r t msg).sent = r.sent ++ [⟨e.2, msg⟩]) ∧
      ∀ t' : Int, 0 ≤ t' ∧ t' < 2 ^ r.node.m → closestNode r.node.ftab t' = e.2 := by
  have hN : (2 : Int) ^ r.node.m ≤ 2 ^ 62 := pow_le_pow_right₀ (by norm_num) hm
  obtain ⟨e, he, hmin, hc⟩ := closestNode_smallest _ t hN ht r.node.ftab hne hk
  refine ⟨e, he, hmin, hc, ?_, ?_⟩
  · intro hrun hd
    simp [sendToNextBestNode, sendMessage, hrun, hc, hd]
  · intro t' ht'
    obtain ⟨e2, he2, hmin2, hc2⟩ := closestNode_smallest _ t' hN ht' r.node.ftab hne hk
    have hkey : e2.1 = e.1 := le_antisymm (hmin2 e he) (hmin e2 he2)
    have heq : e2 = e := List.inj_on_of_nodup_map hnd he2 he hkey
    rw [hc2, heq]

/-- C23 at the node `":6663"` of the two-node ring, whose cache holds the
identifiers 4, 5 and 7: the targets 6 and 0 lead to the same address. -/
theorem sendToNextBestNode_smallest_identifier_witness :
    closestNode nodeThreeOfTwo.ftab 6 = closestNode nodeThreeOfTwo.ftab 0 := by
  obtain ⟨e, _, _, hc, _, hall⟩ := sendToNextBestNode_smallest_identifier testEnv
    ⟨nodeThreeOfTwo, []⟩ 6 ⟨"_getInfo", ":6665", "", "", "6"⟩ (by decide!) (by decide!)
    (by decide!) (by decide!) (by decide!)
  exact hc.trans (hall 0 (by decide!)).symm

/-! ## C24 -/

/-- For a datagram that carries all five fields, what an iteration of a
running node does is the same whatever envelope the previous iteration left
in `msg`. -/
theorem startUpSystem_complete_envelope (env : Env) (nodeAddr : String) (σ : Node)
    (old e : CommandMessage) (hrun : σ.status = .running) :
    startUpSystem env nodeAddr { σ with msg := old } (marshal e) =
      startUpSystem env nodeAddr σ (marshal e) := by
  simp [startUpSystem, marshal, unmarshal, hrun]

/-- C24 (the code departs from it): the node `":6661"`, fresh or after it has
answered a proposal of `":6663"`, is in the same ring state.  Yet bytes that
do not decode make the fresh node send nothing and make the other one send
its proposal-ack again; and a proposal that leaves out the source address
ends the fresh node (the empty address cannot be dialled) while the other
one answers `":6663"`. -/
theorem same_ring_state_different_outcome :
    ringState (runEvents testEnv freshNode proposalHistory) = ringState freshNode ∧
    (startUpSystem testEnv ":6661" freshNode Datagram.garbage).sent = [] ∧
    (startUpSystem testEnv ":6661" (runEvents testEnv freshNode proposalHistory)
        Datagram.garbage).sent =
      [⟨":6663", ⟨"_resProposal", ":6661", ":6663", "successor", "1"⟩⟩] ∧
    (startUpSystem testEnv ":6661" freshNode proposalWithoutSource).sent = [] ∧
    (startUpSystem testEnv ":6661" freshNode proposalWithoutSource).node.status = .exited ∧
    (startUpSystem testEnv ":6661" (runEvents testEnv freshNode proposalHistory)
        proposalWithoutSource).sent =
      [⟨":6663", ⟨"_resProposal", ":6661", ":6663", "successor", "1"⟩⟩] := by
  decide!

/-! ## C25 -/

/-- C25 (the code departs from it): the node `":6661"`, started alone, handles
a discover request from `":6663"`.  In the state reached its successor
descriptor is set as a unit, but its predecessor address is `":6663"` while
its predecessor identifier is still `-1`. -/
theorem predecessor_not_set_as_unit :
    ringState (runEvents testEnv (main testEnv ":6661" ":6661").node
        [.datagram (marshal ⟨"_discover", ":6663", "", "", ""⟩)]) =
      ⟨3, ":6663", -1, ":6663", [(3, ":6663")], []⟩ ∧
    setAsUnit
      (runEvents testEnv (main testEnv ":6661" ":6661").node
        [.datagram (marshal ⟨"_discover", ":6663", "", "", ""⟩)]).successor
      (runEvents testEnv (main testEnv ":6661" ":6661").node
        [.datagram (marshal ⟨"_discover", ":6663", "", "", ""⟩)]).successorAddr ∧
    ¬ setAsUnit
      (runEvents testEnv (main testEnv ":6661" ":6661").node
        [.datagram (marshal ⟨"_discover", ":6663", "", "", ""⟩)]).predecessor
      (runEvents testEnv (main testEnv ":6661" ":6661").node
        [.datagram (marshal ⟨"_discover", ":6663", "", "", ""⟩)]).predecessorAddr := by
  decide!

end Channel
